import Mathlib

/-!
# Geometry length pipeline: conditional result store, lookup service, retrying client

A shallow embedding of the Spanner variant of the geometry example
(`src/spanner/geometry-processor.cc`, `src/spanner/geometry-server.cc`):

* `MaybeUpdateComputedLengthTxn` is the body of the transaction callback of
  `GeometryDatabase::MaybeUpdateComputedLength`, a function of the rows that
  the transactional read yields; `MaybeUpdateComputedLength` runs it against a
  table modelled as a list of rows.
* `LookupLengthRows` is the body of `GeometryServiceImpl::LookupLength`, a
  function of the rows that the query yields; `LookupLength` runs it against
  the same table.
* `ComputeSquareLoop` is the `for (;;)` loop of `GeometryComputer::ComputeSquare`
  with the remote service, the random generator and the clock as explicit
  inputs.
* `ComputeLength` is `GeometryComputer::ComputeLength`, with the `double`
  operations as explicit inputs, and `SubscribeCallback` is the callback that
  `Run` subscribes, with the request parser and the database as explicit
  inputs.

The `double` payload of a computed length is only stored and returned by the
store and the lookup service, so these are generic in the type `D` of lengths.
-/

namespace mathematics

/-! ## Status values -/

/-- Status codes. `grpc::StatusCode` and `google::cloud::StatusCode` use the same
numbering (0 .. 16), so the `static_cast`s between the two enums in the source
are the identity on this type; the constructors are listed in numeric order
(`OK` is `kOk`, `INTERNAL` is `kInternal`, and so on). -/
inductive StatusCode where
  | OK
  | CANCELLED
  | UNKNOWN
  | INVALID_ARGUMENT
  | DEADLINE_EXCEEDED
  | NOT_FOUND
  | ALREADY_EXISTS
  | PERMISSION_DENIED
  | RESOURCE_EXHAUSTED
  | FAILED_PRECONDITION
  | ABORTED
  | OUT_OF_RANGE
  | UNIMPLEMENTED
  | INTERNAL
  | UNAVAILABLE
  | DATA_LOSS
  | UNAUTHENTICATED
  deriving DecidableEq, Repr

/-- The integer value of a status code: `static_cast<int>(code)`. -/
def StatusCode.toInt : StatusCode → Int
  | .OK => 0
  | .CANCELLED => 1
  | .UNKNOWN => 2
  | .INVALID_ARGUMENT => 3
  | .DEADLINE_EXCEEDED => 4
  | .NOT_FOUND => 5
  | .ALREADY_EXISTS => 6
  | .PERMISSION_DENIED => 7
  | .RESOURCE_EXHAUSTED => 8
  | .FAILED_PRECONDITION => 9
  | .ABORTED => 10
  | .OUT_OF_RANGE => 11
  | .UNIMPLEMENTED => 12
  | .INTERNAL => 13
  | .UNAVAILABLE => 14
  | .DATA_LOSS => 15
  | .UNAUTHENTICATED => 16

/-- A status: `grpc::Status` or `google::cloud::Status`, a code and a message. -/
structure Status where
  code : StatusCode
  message : String
  deriving DecidableEq, Repr

/-- The status `grpc::Status::OK`, also the default `cloud::Status()`. -/
def Status.OK : Status := ⟨StatusCode.OK, ""⟩

/-- The test `status.ok()`: the code is `OK`. -/
def Status.ok (s : Status) : Bool := decide (s.code = StatusCode.OK)

/-- A `cloud::StatusOr<T>`: a value, or the status of a failure. -/
abbrev StatusOr (T : Type) := Except Status T

deriving instance DecidableEq for Except

/-- The test `status_or.ok()`: a value is held. -/
def StatusOr.isOk {T : Type} : StatusOr T → Bool
  | .ok _ => true
  | .error _ => false

/-! ## The `computed_length` table -/

/-- Serialized bytes (`std::string` payloads, `spanner::Bytes`). -/
abbrev Bytes := List UInt8

/-- The message `LengthComputationErrorDetails`: the integer status code and the
message of a failed computation. -/
structure LengthComputationErrorDetails where
  code : Int
  message : String
  deriving DecidableEq, Repr

/-- The protobuf serialization of `LengthComputationErrorDetails`, which the
source takes from the protobuf library: `SerializeAsString` and
`ParseFromString` (`none` when parsing fails). -/
structure ErrorDetailsCodec where
  SerializeAsString : LengthComputationErrorDetails → Bytes
  ParseFromString : Bytes → Option LengthComputationErrorDetails

/-- A row of `computed_length`: the columns `id`, `version`, `length` and
`error_details`, the last two nullable. -/
structure StoredRow (D : Type) where
  id : String
  version : Int
  length : Option D
  error_details : Option Bytes

/-- The table `computed_length`. -/
abbrev Database (D : Type) := List (StoredRow D)

/-- A mutation built by `spanner::MakeInsertOrUpdateMutation` on the columns
`id, version, length, error_details` of `computed_length`. -/
inductive Mutation (D : Type) where
  | MakeInsertOrUpdateMutation (id : String) (version : Int)
      (length : Option D) (error_details : Option Bytes)

/-- The rows of the table with the given key. -/
def rowsWithId {D : Type} (db : Database D) (id : String) : Database D :=
  db.filter (fun r => decide (r.id = id))

/-- The transactional read `client.Read(txn, table, key, {version, length})` on a
table that serves every row without a read error. -/
def Read {D : Type} (db : Database D) (id : String) :
    List (StatusOr (Int × Option D)) :=
  (rowsWithId db id).map (fun r => Except.ok (r.version, r.length))

/-- The query `SELECT version, length, error_details FROM computed_length
WHERE id = @id` on a table that serves every row without a read error. -/
def ExecuteQuery {D : Type} (db : Database D) (id : String) :
    List (StatusOr (Int × Option D × Option Bytes)) :=
  (rowsWithId db id).map (fun r => Except.ok (r.version, r.length, r.error_details))

/-- Applying an insert-or-update mutation: the rows with the key take the new
column values, and a new row is inserted when no row has the key. -/
def applyMutation {D : Type} (db : Database D) : Mutation D → Database D
  | .MakeInsertOrUpdateMutation id version length error_details =>
    if db.any (fun r => decide (r.id = id)) then
      db.map (fun r => if r.id = id then ⟨id, version, length, error_details⟩ else r)
    else
      db ++ [⟨id, version, length, error_details⟩]

/-- Applying the mutations of a committed transaction in order. -/
def applyMutations {D : Type} (db : Database D) (ms : List (Mutation D)) : Database D :=
  ms.foldl applyMutation db

/-! ## Conditional result store: `GeometryDatabase::MaybeUpdateComputedLength` -/

/-- The row loop of the transaction callback: `cnt`, `read_version` and
`read_length` are the loop variables; the loop returns a status on a second row
and on a row that failed to read, and otherwise runs to the end of the stream. -/
def readRowsLoop {D : Type} (id : String) :
    List (StatusOr (Int × Option D)) → Nat → Int → Option D →
      Except Status (Nat × Int × Option D)
  | [], cnt, read_version, read_length => .ok (cnt, read_version, read_length)
  | row :: rest, cnt, _, _ =>
    if cnt + 1 > 1 then
      .error ⟨StatusCode.INTERNAL, "Got multiple rows with computed_length.id " ++ id⟩
    else
      match row with
      | .error st =>
        .error ⟨st.code, st.message ++ "; reading computed_length for id " ++ id⟩
      | .ok (v, l) => readRowsLoop id rest (cnt + 1) v l

/-- The value of `length_or_null` when the mutation is built: the length of a
successful result, null for a failure. -/
def length_or_null {D : Type} : StatusOr D → Option D
  | .ok l => some l
  | .error _ => none

/-- The value of `serialized_error_or_null` when the mutation is built: null for a
successful result, the serialized `LengthComputationErrorDetails` holding the
integer code and the message of the status for a failure. -/
def serialized_error_or_null {D : Type} (codec : ErrorDetailsCodec) : StatusOr D → Option Bytes
  | .ok _ => none
  | .error st => some (codec.SerializeAsString ⟨st.code.toInt, st.message⟩)

/-- The transaction callback of `MaybeUpdateComputedLength`, as a function of the
rows that the read yields: a status, or the mutations to commit.
`read_version` is uninitialised before the loop in the source and only used
after a row was read; it starts at 0 here. -/
def MaybeUpdateComputedLengthTxn {D : Type} (codec : ErrorDetailsCodec)
    (id : String) (version : Int) (length : StatusOr D)
    (result : List (StatusOr (Int × Option D))) : StatusOr (List (Mutation D)) :=
  match readRowsLoop id result 0 0 none with
  | .error st => .error st
  | .ok (cnt, read_version, read_length) =>
    if cnt = 1 ∧ read_length.isSome = true ∧ StatusOr.isOk length = false then
      .ok []
    else if cnt = 1 ∧ (read_length.isSome = true ∨ StatusOr.isOk length = false) ∧
        read_version ≥ version then
      .ok []
    else
      .ok [Mutation.MakeInsertOrUpdateMutation id version (length_or_null length)
        (serialized_error_or_null codec length)]

/-- The method `GeometryDatabase::MaybeUpdateComputedLength` on a table: the
callback runs on the rows read for `id`; its mutations are applied and the
commit status is `OK`, or its failure status is returned and nothing is
written. The result is the returned status and the table afterwards. -/
def MaybeUpdateComputedLength {D : Type} (codec : ErrorDetailsCodec)
    (db : Database D) (id : String) (version : Int) (length : StatusOr D) :
    Status × Database D :=
  match MaybeUpdateComputedLengthTxn codec id version length (Read db id) with
  | .error st => (st, db)
  | .ok ms => (Status.OK, applyMutations db ms)

/-- The row that the mutation of a commit of `(id, version, length)` holds. -/
def writtenRow {D : Type} (codec : ErrorDetailsCodec) (id : String) (version : Int)
    (length : StatusOr D) : StoredRow D :=
  ⟨id, version, length_or_null length, serialized_error_or_null codec length⟩

/-! ## Lookup service: `GeometryServiceImpl::LookupLength` -/

/-- The message `LookupLengthResponse`: the version and either the length or
the error details. -/
structure LookupLengthResponse (D : Type) where
  version : Int
  length : Option D
  error_details : Option LengthComputationErrorDetails

/-- The row loop of `LookupLength`: `cnt`, `version`, `length` and
`error_details` are the loop variables. -/
def lookupRowsLoop {D : Type} (id : String) :
    List (StatusOr (Int × Option D × Option Bytes)) → Nat → Int → Option D → Option Bytes →
      Except Status (Nat × Int × Option D × Option Bytes)
  | [], cnt, version, length, error_details => .ok (cnt, version, length, error_details)
  | row :: rest, cnt, _, _, _ =>
    if cnt + 1 > 1 then
      .error ⟨StatusCode.INTERNAL, "Got multiple rows with computed_length.id " ++ id⟩
    else
      match row with
      | .error st =>
        .error ⟨st.code, st.message ++ "; reading computed_length for id " ++ id⟩
      | .ok (v, l, e) => lookupRowsLoop id rest (cnt + 1) v l e

/-- The body of `GeometryServiceImpl::LookupLength`, as a function of the rows
that the query yields: the returned status and the response as it was filled
in. `version` is uninitialised before the loop in the source and only used
after a row was read; it starts at 0 here, the default of the response field. -/
def LookupLengthRows {D : Type} (codec : ErrorDetailsCodec) (id : String)
    (result : List (StatusOr (Int × Option D × Option Bytes))) :
    Status × LookupLengthResponse D :=
  match lookupRowsLoop id result 0 0 none none with
  | .error st => (st, ⟨0, none, none⟩)
  | .ok (cnt, version, length, error_details) =>
    if cnt = 0 then
      (⟨StatusCode.NOT_FOUND, "Computed length not found, id: " ++ id⟩, ⟨0, none, none⟩)
    else
      match length, error_details with
      | none, none =>
        (⟨StatusCode.DATA_LOSS,
          "length and error_details are both NULL for computed_length.id " ++ id⟩,
          ⟨0, none, none⟩)
      | some _, some _ =>
        (⟨StatusCode.DATA_LOSS,
          "length and error_details are both not NULL for computed_length.id " ++ id⟩,
          ⟨0, none, none⟩)
      | some l, none => (Status.OK, ⟨version, some l, none⟩)
      | none, some bytes =>
        match codec.ParseFromString bytes with
        | none =>
          (⟨StatusCode.DATA_LOSS,
            "Corrupted data in computed_length.error_details for id " ++ id⟩,
            ⟨version, none, none⟩)
        | some error => (Status.OK, ⟨version, none, some error⟩)

/-- The method `GeometryServiceImpl::LookupLength` on a table. -/
def LookupLength {D : Type} (codec : ErrorDetailsCodec) (db : Database D) (id : String) :
    Status × LookupLengthResponse D :=
  LookupLengthRows codec id (ExecuteQuery db id)

/-! ## Retrying compute client: `GeometryComputer::ComputeSquare` -/

/-- What a run of the client depends on outside the client. Remote calls are
numbered from 0 in the order in which they are issued; the random draw and the
clock reading that follow a failed call carry the number of that call. -/
structure Environment where
  /-- The remote call `arithmetic_->ComputeSquare(&ctx, request, &response)`:
  the returned status and `response.square()` of call `k` for the number `n`. -/
  ComputeSquare : Nat → Int → Status × Int
  /-- The value `dist(random_)` drawn after call `k` from
  `std::uniform_int_distribution<int> dist(n1, n2)`. -/
  dist : Nat → Int → Int → Int
  /-- The reading of `std::chrono::system_clock::now()` after call `k`, in ticks
  of the clock. -/
  now : Nat → Int
  /-- The number of clock ticks in a millisecond. -/
  ticksPerMs : Int

/-- What the client does that is visible outside: remote calls and sleeps. -/
inductive Event where
  | call (n : Int)
  | sleep (delay_ms : Int)
  deriving DecidableEq, Repr

/-- The record of a run so far: the number of remote calls issued and the
events in the order in which they happened. -/
structure World where
  calls : Nat
  events : List Event
  deriving DecidableEq, Repr

/-- The result of running a loop with a bound on the number of iterations:
`done` when the code returned, `undefined` when it reached an operation whose
behaviour C++ leaves undefined, `outOfFuel` when the bound was reached. -/
inductive Outcome (α : Type) where
  | done (a : α)
  | undefined
  | outOfFuel
  deriving DecidableEq, Repr

/-- The largest `int`. -/
def INT_MAX : Int := 2147483647

/-- The smallest `int`. -/
def INT_MIN : Int := -2147483648

/-- Conversion to `int` of a `double` whose value is exactly `num / den`: the
value truncated toward zero, and `none` when that is outside the range of
`int`, where the conversion is undefined. -/
def doubleToInt (num den : Int) : Option Int :=
  if INT_MIN ≤ Int.tdiv num den ∧ Int.tdiv num den ≤ INT_MAX then some (Int.tdiv num den) else none

/-- The constant `kInitialDelayMs`. -/
def kInitialDelayMs : Int := 200

/-- The method `GeometryComputer::IsRetryableError`. -/
def IsRetryableError (status : Status) : Bool :=
  match status.code with
  | StatusCode.UNAVAILABLE => true
  | _ => false

/-- The method `GeometryComputer::RandomIntBetween` for the draw after call `k`;
`none` when `n1 > n2`, where the distribution is undefined. -/
def RandomIntBetween (env : Environment) (k : Nat) (n1 n2 : Int) : Option Int :=
  if n1 ≤ n2 then some (env.dist k n1 n2) else none

/-- What one pass through the body of the `for (;;)` loop of `ComputeSquare` ends
in: a `return`, a sleep followed by the next pass, or undefined behaviour. -/
inductive Iteration where
  | returned (result : StatusOr Int)
  | retry (delay_ms : Int) (next_delay_ms : Int)
  | undefined
  deriving DecidableEq, Repr

/-- One pass through the body of the `for (;;)` loop of `ComputeSquare`, where the
remote call is call number `k`. The products `0.75 * next_delay_ms`,
`1.25 * next_delay_ms` and `next_delay_ms * kScaling` (`kScaling` is 1.5) are
exact in `double` for every `int`, so they are the fractions `3 * x / 4`,
`5 * x / 4` and `3 * x / 2`; each is converted to `int`. The deadline and the
clock are in clock ticks. -/
def ComputeSquareIteration (env : Environment) (n deadline next_delay_ms : Int) (k : Nat) :
    Iteration :=
  let s := (env.ComputeSquare k n).1
  let square := (env.ComputeSquare k n).2
  if s.ok then
    .returned (.ok square)
  else if !IsRetryableError s then
    .returned (.error ⟨s.code, s.message ++ "; calling the arithmetic server."⟩)
  else
    match doubleToInt (3 * next_delay_ms) 4, doubleToInt (5 * next_delay_ms) 4 with
    | some n1, some n2 =>
      match RandomIntBetween env k n1 n2 with
      | none => .undefined
      | some delay_ms =>
        match doubleToInt (3 * next_delay_ms) 2 with
        | none => .undefined
        | some scaled =>
          if env.now k + delay_ms * env.ticksPerMs > deadline then
            .returned (.error ⟨StatusCode.DEADLINE_EXCEEDED,
              "Deadline exceeded calling Arithmetic.ComputeSquare"⟩)
          else
            .retry delay_ms scaled
    | _, _ => .undefined

/-- The `for (;;)` loop of `ComputeSquare`, run for at most `fuel` passes from the
loop variable `next_delay_ms` and the record `w` of the run so far: every pass
issues one remote call, and a retry sleeps before the next pass. -/
def ComputeSquareLoop (env : Environment) (n deadline : Int) :
    Nat → Int → World → Outcome (StatusOr Int × World)
  | 0, _, _ => .outOfFuel
  | fuel + 1, next_delay_ms, w =>
    match ComputeSquareIteration env n deadline next_delay_ms w.calls with
    | .returned result => .done (result, ⟨w.calls + 1, w.events ++ [Event.call n]⟩)
    | .undefined => .undefined
    | .retry delay_ms scaled =>
      ComputeSquareLoop env n deadline fuel scaled
        ⟨w.calls + 1, w.events ++ [Event.call n, Event.sleep delay_ms]⟩

/-- The method `GeometryComputer::ComputeSquare`: the loop started with
`next_delay_ms = kInitialDelayMs`. -/
def ComputeSquare (env : Environment) (n deadline : Int) (fuel : Nat) (w : World) :
    Outcome (StatusOr Int × World) :=
  ComputeSquareLoop env n deadline fuel kInitialDelayMs w

/-! ## Sequences of commits and the row invariant -/

/-- The row that a mutation holds. -/
def Mutation.row {D : Type} : Mutation D → StoredRow D
  | .MakeInsertOrUpdateMutation id version length error_details =>
    ⟨id, version, length, error_details⟩

/-- The invariant of a stored row: exactly one of `length` and `error_details` is
present. -/
def StoredRow.exactlyOne {D : Type} (r : StoredRow D) : Prop :=
  (r.length.isSome = true ∧ r.error_details.isSome = false) ∨
    (r.length.isSome = false ∧ r.error_details.isSome = true)

/-- The arguments of one call of `MaybeUpdateComputedLength`. -/
structure CommitRequest (D : Type) where
  id : String
  version : Int
  length : StatusOr D

/-- The table after a sequence of commits, applied in order. -/
def commitAll {D : Type} (codec : ErrorDetailsCodec) (db : Database D)
    (requests : List (CommitRequest D)) : Database D :=
  requests.foldl (fun db c => (MaybeUpdateComputedLength codec db c.id c.version c.length).2) db

/-! ## The rank of a stored row -/

/-- The rank of a stored row: 1 when `length` is present and 0 otherwise, then the
version. Ranks are compared lexicographically. -/
def StoredRow.rank {D : Type} (r : StoredRow D) : Nat × Int :=
  (if r.length.isSome = true then 1 else 0, r.version)

/-! ## Streams of rows -/

/-- The shape of the streams that `spanner::StreamOf` yields: a row that failed to
read ends the stream, so only the last element can be a failure. -/
def errorOnlyLast {α : Type} : List (StatusOr α) → Bool
  | [] => true
  | [_] => true
  | .ok _ :: next :: rest => errorOnlyLast (next :: rest)
  | .error _ :: _ :: _ => false

/-! ## The delays of consecutive retries -/

/-- The loop variable `next_delay_ms` after `j` executions of
`next_delay_ms *= kScaling`, started from `x`. -/
def scaledDelay (x : Int) : Nat → Int
  | 0 => x
  | j + 1 => scaledDelay (Int.tdiv (3 * x) 2) j

/-- Whether a run of the loop has returned. -/
def Outcome.isDone {α : Type} : Outcome α → Bool
  | .done _ => true
  | _ => false

/-! ## Length pipeline: `GeometryComputer::ComputeLength` -/

/-- The `double` operations that `ComputeLength` uses, which the source takes from
the platform: the conversion of an `int` to `double`, the addition in
`sum += *square`, and `sqrt`. -/
structure DoubleArith (D : Type) where
  ofInt : Int → D
  add : D → D → D
  sqrt : D → D

/-- What `double` arithmetic does on small integers: the sum of two non-negative
integers is exact while it is at most `2 ^ 53`, and the square root of a
perfect square that is at most `2 ^ 53` is exact. -/
def DoubleArith.exactOnIntegers {D : Type} (ops : DoubleArith D) : Prop :=
  (∀ a b : Int, 0 ≤ a → 0 ≤ b → a + b ≤ 2 ^ 53 →
      ops.add (ops.ofInt a) (ops.ofInt b) = ops.ofInt (a + b)) ∧
    (∀ m : Int, 0 ≤ m → m * m ≤ 2 ^ 53 → ops.sqrt (ops.ofInt (m * m)) = ops.ofInt m)

/-- The loop of `ComputeLength` over the coordinates that are left, with the
variable `sum`; every call of `ComputeSquare` runs for at most `fuel` passes. -/
def ComputeLengthLoop {D : Type} (env : Environment) (ops : DoubleArith D) (deadline : Int)
    (fuel : Nat) : List Int → D → World → Outcome (StatusOr D × World)
  | [], sum, w => .done (.ok (ops.sqrt sum), w)
  | n :: rest, sum, w =>
    match ComputeSquare env n deadline fuel w with
    | .done (.ok square, w1) =>
      ComputeLengthLoop env ops deadline fuel rest (ops.add sum (ops.ofInt square)) w1
    | .done (.error st, w1) => .done (.error st, w1)
    | .undefined => .undefined
    | .outOfFuel => .outOfFuel

/-- The method `GeometryComputer::ComputeLength` on the coordinates of the request:
`sum` starts at 0. -/
def ComputeLength {D : Type} (env : Environment) (ops : DoubleArith D)
    (coordinates : List Int) (deadline : Int) (fuel : Nat) (w : World) :
    Outcome (StatusOr D × World) :=
  ComputeLengthLoop env ops deadline fuel coordinates (ops.ofInt 0) w

/-- One call of `ComputeSquare` for each of the coordinates, in order, each call
starting from the record of the run that the call before left: the squares
returned and the record afterwards when every call succeeds, `none` otherwise. -/
def squaresInOrder (env : Environment) (deadline : Int) (fuel : Nat) :
    List Int → World → Option (List Int × World)
  | [], w => some ([], w)
  | n :: rest, w =>
    match ComputeSquare env n deadline fuel w with
    | .done (.ok square, w1) =>
      match squaresInOrder env deadline fuel rest w1 with
      | some (squares, w2) => some (square :: squares, w2)
      | none => none
    | _ => none

/-! ## The arithmetic server: `ArithmeticServiceImpl::ComputeSquare` -/

/-- The method `ArithmeticServiceImpl::ComputeSquare` of
`src/spanner/arithmetic-server.cc` on `request->number()`: the returned status
and `response->square()`, which stays 0 when the number is rejected. -/
def ArithmeticServiceImpl.ComputeSquare (number : Int) : Status × Int :=
  if number < 0 ∨ number > 1000 then
    (⟨StatusCode.INVALID_ARGUMENT,
      "request.number " ++ toString number ++ " is outside the valid range 0 .. 1000"⟩, 0)
  else
    (Status.OK, number * number)

/-! ## Ingestion: the subscriber callback of `Run` -/

/-- The message `ScheduleLengthComputationRequest`. -/
structure ScheduleLengthComputationRequest where
  id : String
  version : Int
  coordinates : List Int

/-- What handling one delivered message did: the number of acknowledgments sent,
the calls of `MaybeUpdateComputedLength` made, the state of the store and the
record of remote calls afterwards. -/
structure Delivery (D S : Type) where
  acks : Nat
  commits : List (CommitRequest D)
  store : S
  world : World

/-- The callback that `Run` passes to `subscriber.Subscribe`, for a message with
payload `data` received at clock reading `received`. `ParseFromString` is the
protobuf parser of the request (`none` when the payload is malformed), and
`db` is the method `db.MaybeUpdateComputedLength` with the state of the store
made explicit. The deadline is one minute after the receipt. -/
def SubscribeCallback {D S : Type}
    (ParseFromString : Bytes → Option ScheduleLengthComputationRequest)
    (env : Environment) (ops : DoubleArith D)
    (db : S → String → Int → StatusOr D → Status × S)
    (fuel : Nat) (received : Int) (data : Bytes) (store : S) (w : World) :
    Outcome (Delivery D S) :=
  match ParseFromString data with
  | none => .done ⟨0, [], store, w⟩
  | some request =>
    match ComputeLength env ops request.coordinates (received + 60000 * env.ticksPerMs)
        fuel w with
    | .done (length, w1) =>
      if (db store request.id request.version length).1.ok = false then
        .done ⟨0, [⟨request.id, request.version, length⟩],
          (db store request.id request.version length).2, w1⟩
      else
        .done ⟨1, [⟨request.id, request.version, length⟩],
          (db store request.id request.version length).2, w1⟩
    | .undefined => .undefined
    | .outOfFuel => .outOfFuel

/-! ## Instances used in examples -/

/-- A byte encoding of error details for examples: one byte for the code, then
one byte for each character of the message. It decodes what it encoded when
the code is below 256 and the message is ASCII. -/
def exampleCodec : ErrorDetailsCodec where
  SerializeAsString e := e.code.toNat.toUInt8 :: e.message.toList.map (fun c => c.toNat.toUInt8)
  ParseFromString bytes :=
    match bytes with
    | [] => none
    | c :: rest => some ⟨Int.ofNat c.toNat, String.mk (rest.map (fun b => Char.ofNat b.toNat))⟩

/-- An environment for examples: the first two remote calls fail with
`UNAVAILABLE`, call 2 fails with `INVALID_ARGUMENT`, later calls return the
square; every draw is the lower bound; the clock, in milliseconds, reads
`1000 * k` after call `k`. -/
def exampleEnvironment : Environment where
  ComputeSquare k n :=
    if k < 2 then (⟨StatusCode.UNAVAILABLE, "down"⟩, 0)
    else if k = 2 then (⟨StatusCode.INVALID_ARGUMENT, "bad"⟩, 0)
    else (Status.OK, n * n)
  dist _ n1 _ := n1
  now k := 1000 * k
  ticksPerMs := 1

/-- An environment for examples in which every remote call fails with
`UNAVAILABLE`; every draw is the lower bound; the clock, in milliseconds,
advances by 10000000000 from one call to the next. -/
def unavailableEnvironment : Environment where
  ComputeSquare _ _ := (⟨StatusCode.UNAVAILABLE, "down"⟩, 0)
  dist _ n1 _ := n1
  now k := 10000000000 * k
  ticksPerMs := 1

/-- An environment for examples in which every remote call is answered by the
arithmetic server; every draw is the lower bound; the clock, in milliseconds,
reads `1000 * k` after call `k`. -/
def serverEnvironment : Environment where
  ComputeSquare _ n := ArithmeticServiceImpl.ComputeSquare n
  dist _ n1 _ := n1
  now k := 1000 * k
  ticksPerMs := 1

/-- Arithmetic for examples: the integers, with the integer square root; it agrees
with `double` arithmetic on sums of small integers and on the square roots of
small perfect squares. -/
def exampleArith : DoubleArith Int where
  ofInt x := x
  add x y := x + y
  sqrt x := Int.ofNat (Nat.sqrt x.toNat)

/-- A request parser for examples: the empty payload is malformed, and every other
payload is the request `(x, 1, [3, 4])`. -/
def exampleParseFromString : Bytes → Option ScheduleLengthComputationRequest
  | [] => none
  | _ :: _ => some ⟨"x", 1, [3, 4]⟩


/-! ## Lemmas on the table -/

theorem rowsWithId_eq_nil_iff {D : Type} (db : Database D) (id : String) :
    rowsWithId db id = [] ↔ db.any (fun r => decide (r.id = id)) = false := by
  induction db with
  | nil => simp [rowsWithId]
  | cons r rest ih =>
    by_cases h : r.id = id
    · simp [rowsWithId, List.filter_cons, h]
    · simp [rowsWithId, List.filter_cons, h]

theorem rowsWithId_append {D : Type} (db₁ db₂ : Database D) (id : String) :
    rowsWithId (db₁ ++ db₂) id = rowsWithId db₁ id ++ rowsWithId db₂ id := by
  simp [rowsWithId]

theorem rowsWithId_replace_same {D : Type} (db : Database D) (row : StoredRow D) :
    rowsWithId (db.map (fun r => if r.id = row.id then row else r)) row.id =
      (rowsWithId db row.id).map (fun _ => row) := by
  induction db with
  | nil => simp [rowsWithId]
  | cons r rest ih =>
    by_cases h : r.id = row.id
    · simpa [rowsWithId, List.filter_cons, h] using ih
    · simpa [rowsWithId, List.filter_cons, h] using ih

theorem rowsWithId_replace_other {D : Type} (db : Database D) (row : StoredRow D)
    (id : String) (hne : id ≠ row.id) :
    rowsWithId (db.map (fun r => if r.id = row.id then row else r)) id = rowsWithId db id := by
  have h1 : ¬ row.id = id := fun e => hne e.symm
  induction db with
  | nil => simp [rowsWithId]
  | cons r rest ih =>
    unfold rowsWithId at ih ⊢
    rw [List.map_cons, List.filter_cons, List.filter_cons, ih]
    by_cases h : r.id = row.id
    · have h2 : ¬ r.id = id := fun e => hne (e.symm.trans h)
      simp [h, h1, h2]
    · simp [h]

/-- An insert-or-update mutation with a key that no row has adds its row. -/
theorem applyMutation_insert {D : Type} (db : Database D) (id : String)
    (version : Int) (length : Option D) (error_details : Option Bytes)
    (h : rowsWithId db id = []) :
    applyMutation db (.MakeInsertOrUpdateMutation id version length error_details) =
      db ++ [⟨id, version, length, error_details⟩] := by
  have hany := (rowsWithId_eq_nil_iff db id).1 h
  simp [applyMutation, hany]

/-- An insert-or-update mutation with a key that some row has replaces the rows
that have the key. -/
theorem applyMutation_update {D : Type} (db : Database D) (id : String)
    (version : Int) (length : Option D) (error_details : Option Bytes)
    (h : rowsWithId db id ≠ []) :
    applyMutation db (.MakeInsertOrUpdateMutation id version length error_details) =
      db.map (fun r => if r.id = id then ⟨id, version, length, error_details⟩ else r) := by
  have hany : db.any (fun r => decide (r.id = id)) = true := by
    cases hb : db.any (fun r => decide (r.id = id)) with
    | true => rfl
    | false => exact absurd ((rowsWithId_eq_nil_iff db id).2 hb) h
  simp only [applyMutation, hany, if_true]

/-- The rows stored under the key of an insert-or-update mutation afterwards, when
no row had the key: the new row. -/
theorem rowsWithId_applyMutation_insert {D : Type} (db : Database D) (id : String)
    (version : Int) (length : Option D) (error_details : Option Bytes)
    (h : rowsWithId db id = []) :
    rowsWithId (applyMutation db (.MakeInsertOrUpdateMutation id version length error_details)) id =
      [⟨id, version, length, error_details⟩] := by
  rw [applyMutation_insert db id version length error_details h, rowsWithId_append, h]
  simp [rowsWithId]

/-- The rows stored under the key of an insert-or-update mutation afterwards, when
one row had the key: the new row. -/
theorem rowsWithId_applyMutation_update {D : Type} (db : Database D) (id : String)
    (version : Int) (length : Option D) (error_details : Option Bytes)
    (existing : StoredRow D) (h : rowsWithId db id = [existing]) :
    rowsWithId (applyMutation db (.MakeInsertOrUpdateMutation id version length error_details)) id =
      [⟨id, version, length, error_details⟩] := by
  rw [applyMutation_update db id version length error_details (by simp [h])]
  have := rowsWithId_replace_same db ⟨id, version, length, error_details⟩
  simp only [] at this
  rw [this, h]
  rfl

/-- An insert-or-update mutation leaves the rows stored under other keys as they
were. -/
theorem rowsWithId_applyMutation_other {D : Type} (db : Database D) (id : String)
    (version : Int) (length : Option D) (error_details : Option Bytes)
    (id' : String) (hne : id' ≠ id) :
    rowsWithId (applyMutation db (.MakeInsertOrUpdateMutation id version length error_details)) id' =
      rowsWithId db id' := by
  by_cases h : rowsWithId db id = []
  · rw [applyMutation_insert db id version length error_details h, rowsWithId_append]
    have : ¬ id = id' := fun e => hne e.symm
    simp [rowsWithId, this]
  · rw [applyMutation_update db id version length error_details h]
    exact rowsWithId_replace_other db ⟨id, version, length, error_details⟩ id' hne

/-! ## Lemmas on the transaction callback -/

theorem txn_no_row {D : Type} (codec : ErrorDetailsCodec) (id : String) (version : Int)
    (length : StatusOr D) :
    MaybeUpdateComputedLengthTxn codec id version length [] =
      .ok [Mutation.MakeInsertOrUpdateMutation id version (length_or_null length)
        (serialized_error_or_null codec length)] := by
  simp [MaybeUpdateComputedLengthTxn, readRowsLoop]

theorem txn_one_row {D : Type} (codec : ErrorDetailsCodec) (id : String) (version : Int)
    (length : StatusOr D) (read_version : Int) (read_length : Option D) :
    MaybeUpdateComputedLengthTxn codec id version length [.ok (read_version, read_length)] =
      if read_length.isSome = true ∧ StatusOr.isOk length = false then .ok []
      else if (read_length.isSome = true ∨ StatusOr.isOk length = false) ∧
          read_version ≥ version then .ok []
      else .ok [Mutation.MakeInsertOrUpdateMutation id version (length_or_null length)
        (serialized_error_or_null codec length)] := by
  simp [MaybeUpdateComputedLengthTxn, readRowsLoop]

theorem txn_many_rows {D : Type} (codec : ErrorDetailsCodec) (id : String) (version : Int)
    (length : StatusOr D) (row₁ : Int × Option D) (row₂ : StatusOr (Int × Option D))
    (rest : List (StatusOr (Int × Option D))) :
    MaybeUpdateComputedLengthTxn codec id version length (.ok row₁ :: row₂ :: rest) =
      .error ⟨StatusCode.INTERNAL, "Got multiple rows with computed_length.id " ++ id⟩ := by
  simp [MaybeUpdateComputedLengthTxn, readRowsLoop]

theorem read_one_row {D : Type} (db : Database D) (id : String) (existing : StoredRow D)
    (hrow : rowsWithId db id = [existing]) :
    Read db id = [.ok (existing.version, existing.length)] := by
  simp [Read, hrow]


/-! ## The conditional result store -/

/-- C1. When the table holds one row for `id` and its length is present,
committing an error result produces no mutation and leaves the table as it
was, whatever the incoming and the stored version are. -/
theorem commit_error_keeps_stored_length {D : Type} (codec : ErrorDetailsCodec)
    (db : Database D) (id : String) (version : Int) (st : Status) (existing : StoredRow D)
    (hrow : rowsWithId db id = [existing]) (hlen : existing.length.isSome = true) :
    MaybeUpdateComputedLengthTxn codec id version (.error st) (Read db id) = .ok [] ∧
      MaybeUpdateComputedLength codec db id version (.error st) = (Status.OK, db) := by
  have htxn : MaybeUpdateComputedLengthTxn codec id version (.error st) (Read db id) =
      (.ok [] : StatusOr (List (Mutation D))) := by
    rw [read_one_row db id existing hrow, txn_one_row]
    simp [hlen, StatusOr.isOk]
  refine ⟨htxn, ?_⟩
  simp [MaybeUpdateComputedLength, htxn, applyMutations]

/-- C1, the example of the specification: after `(x, 1, success 5)` on the empty
table, committing `(x, 2, error E)` leaves length 5 at version 1. -/
theorem commit_error_keeps_stored_length_witness :
    (rowsWithId [(⟨"x", 1, some 5, none⟩ : StoredRow ℚ)] "x" = [⟨"x", 1, some 5, none⟩] ∧
      (⟨"x", 1, some 5, none⟩ : StoredRow ℚ).length.isSome = true) ∧
    (MaybeUpdateComputedLength exampleCodec ([] : Database ℚ) "x" 1 (.ok 5)).2 =
      [⟨"x", 1, some 5, none⟩] ∧
    MaybeUpdateComputedLength exampleCodec [(⟨"x", 1, some 5, none⟩ : StoredRow ℚ)] "x" 2
      (.error ⟨StatusCode.INTERNAL, "E"⟩) = (Status.OK, [⟨"x", 1, some 5, none⟩]) :=
  ⟨⟨rfl, rfl⟩, rfl,
    (commit_error_keeps_stored_length exampleCodec [(⟨"x", 1, some 5, none⟩ : StoredRow ℚ)] "x" 2
      ⟨StatusCode.INTERNAL, "E"⟩ ⟨"x", 1, some 5, none⟩ rfl rfl).2⟩

/-- C2. When the table holds one row for `id` and its length is absent (an error
row), committing a success result with any version writes: afterwards the row
stored for `id` is `(id, version, length = l, error_details absent)`, the rows of
other ids are as before, and the commit status is `OK`. -/
theorem commit_success_replaces_stored_error {D : Type} (codec : ErrorDetailsCodec)
    (db : Database D) (id : String) (version : Int) (l : D) (existing : StoredRow D)
    (hrow : rowsWithId db id = [existing]) (herr : existing.length = none) :
    MaybeUpdateComputedLengthTxn codec id version (.ok l) (Read db id) =
        .ok [Mutation.MakeInsertOrUpdateMutation id version (some l) none] ∧
      (MaybeUpdateComputedLength codec db id version (.ok l)).1 = Status.OK ∧
      rowsWithId (MaybeUpdateComputedLength codec db id version (.ok l)).2 id =
        [⟨id, version, some l, none⟩] ∧
      ∀ id', id' ≠ id →
        rowsWithId (MaybeUpdateComputedLength codec db id version (.ok l)).2 id' =
          rowsWithId db id' := by
  have htxn : MaybeUpdateComputedLengthTxn codec id version (.ok l) (Read db id) =
      .ok [Mutation.MakeInsertOrUpdateMutation id version (some l) none] := by
    rw [read_one_row db id existing hrow, txn_one_row]
    simp [herr, StatusOr.isOk, length_or_null, serialized_error_or_null]
  refine ⟨htxn, ?_, ?_, ?_⟩
  · simp [MaybeUpdateComputedLength, htxn]
  · simp only [MaybeUpdateComputedLength, htxn, applyMutations, List.foldl]
    exact rowsWithId_applyMutation_update db id version (some l) none existing hrow
  · intro id' hne
    simp only [MaybeUpdateComputedLength, htxn, applyMutations, List.foldl]
    exact rowsWithId_applyMutation_other db id version (some l) none id' hne

/-- C2, the example of the specification: after `(x, 1, error E)` on the empty
table, committing `(x, 1, success 5)` leaves a success row with length 5. -/
theorem commit_success_replaces_stored_error_witness :
    (MaybeUpdateComputedLength exampleCodec ([] : Database ℚ) "x" 1
        (.error ⟨StatusCode.INTERNAL, "E"⟩)).2 = [⟨"x", 1, none, some [13, 69]⟩] ∧
    (rowsWithId [(⟨"x", 1, none, some [13, 69]⟩ : StoredRow ℚ)] "x" =
        [⟨"x", 1, none, some [13, 69]⟩] ∧
      (⟨"x", 1, none, some [13, 69]⟩ : StoredRow ℚ).length = none) ∧
    rowsWithId (MaybeUpdateComputedLength exampleCodec
        [(⟨"x", 1, none, some [13, 69]⟩ : StoredRow ℚ)] "x" 1 (.ok 5)).2 "x" =
      [⟨"x", 1, some 5, none⟩] :=
  ⟨rfl, ⟨rfl, rfl⟩,
    (commit_success_replaces_stored_error exampleCodec
      [(⟨"x", 1, none, some [13, 69]⟩ : StoredRow ℚ)] "x" 1 5 ⟨"x", 1, none, some [13, 69]⟩
      rfl rfl).2.2.1⟩

/-- The commit on a table that holds one row for `id`: the status is `OK`, and the
table is left as it was or takes the mutation, by the overwrite rule. -/
theorem commit_one_row {D : Type} (codec : ErrorDetailsCodec) (db : Database D)
    (id : String) (version : Int) (length : StatusOr D) (existing : StoredRow D)
    (hrow : rowsWithId db id = [existing]) :
    MaybeUpdateComputedLength codec db id version length =
      (Status.OK,
        if existing.length.isSome = true ∧ StatusOr.isOk length = false then db
        else if (existing.length.isSome = true ∨ StatusOr.isOk length = false) ∧
            existing.version ≥ version then db
        else applyMutation db (Mutation.MakeInsertOrUpdateMutation id version
          (length_or_null length) (serialized_error_or_null codec length))) := by
  unfold MaybeUpdateComputedLength
  rw [read_one_row db id existing hrow, txn_one_row]
  by_cases h1 : existing.length.isSome = true ∧ StatusOr.isOk length = false
  · simp only [h1, and_self, if_true, applyMutations, List.foldl]
  · by_cases h2 : (existing.length.isSome = true ∨ StatusOr.isOk length = false) ∧
        existing.version ≥ version
    · simp only [h1, h2, and_self, if_true, if_false, applyMutations, List.foldl]
    · simp only [h1, h2, if_false, applyMutations, List.foldl]

/-- The commit on a table that holds no row for `id` writes. -/
theorem commit_no_row {D : Type} (codec : ErrorDetailsCodec) (db : Database D)
    (id : String) (version : Int) (length : StatusOr D)
    (hrow : rowsWithId db id = []) :
    MaybeUpdateComputedLength codec db id version length =
      (Status.OK, applyMutation db (Mutation.MakeInsertOrUpdateMutation id version
          (length_or_null length) (serialized_error_or_null codec length))) := by
  unfold MaybeUpdateComputedLength
  have hread : Read db id = [] := by simp [Read, hrow]
  rw [hread, txn_no_row]
  simp only [applyMutations, List.foldl]

/-- The commit on a table that holds several rows for `id` fails and writes
nothing. -/
theorem commit_many_rows {D : Type} (codec : ErrorDetailsCodec) (db : Database D)
    (id : String) (version : Int) (length : StatusOr D) (r₁ r₂ : StoredRow D)
    (rest : List (StoredRow D)) (hrow : rowsWithId db id = r₁ :: r₂ :: rest) :
    MaybeUpdateComputedLength codec db id version length =
      (⟨StatusCode.INTERNAL, "Got multiple rows with computed_length.id " ++ id⟩, db) := by
  unfold MaybeUpdateComputedLength
  have hread : Read db id = .ok (r₁.version, r₁.length) :: .ok (r₂.version, r₂.length) ::
      rest.map (fun r => Except.ok (r.version, r.length)) := by simp [Read, hrow]
  rw [hread, txn_many_rows]

theorem isSome_length_or_null {D : Type} (length : StatusOr D) :
    (length_or_null length).isSome = StatusOr.isOk length := by
  cases length <;> rfl

theorem isSome_serialized_error_or_null {D : Type} (codec : ErrorDetailsCodec)
    (length : StatusOr D) :
    (serialized_error_or_null codec length).isSome = !StatusOr.isOk length := by
  cases length <;> rfl

/-- Committing again what the stored row already holds writes nothing. -/
theorem commit_after_write {D : Type} (codec : ErrorDetailsCodec) (db : Database D)
    (id : String) (version : Int) (length : StatusOr D)
    (hrow : rowsWithId db id = [writtenRow codec id version length]) :
    MaybeUpdateComputedLength codec db id version length = (Status.OK, db) := by
  rw [commit_one_row codec db id version length _ hrow]
  simp only [writtenRow, isSome_length_or_null]
  cases h : StatusOr.isOk length <;> simp

/-- C3. When the table holds one row for `id` of the same kind as the incoming
result (both successes or both errors), the commit produces the mutation
exactly when the incoming version is greater than the stored one: then the row
stored for `id` afterwards is the written row, and with an equal or older
incoming version the table is left as it was. The commit status is `OK`. -/
theorem commit_same_kind_iff_newer {D : Type} (codec : ErrorDetailsCodec)
    (db : Database D) (id : String) (version : Int) (length : StatusOr D)
    (existing : StoredRow D) (hrow : rowsWithId db id = [existing])
    (hkind : existing.length.isSome = StatusOr.isOk length) :
    MaybeUpdateComputedLengthTxn codec id version length (Read db id) =
        .ok (if existing.version < version then
          [Mutation.MakeInsertOrUpdateMutation id version (length_or_null length)
            (serialized_error_or_null codec length)]
          else []) ∧
      (MaybeUpdateComputedLength codec db id version length).1 = Status.OK ∧
      (existing.version < version →
        rowsWithId (MaybeUpdateComputedLength codec db id version length).2 id =
          [writtenRow codec id version length]) ∧
      (version ≤ existing.version →
        (MaybeUpdateComputedLength codec db id version length).2 = db) := by
  have hc := commit_one_row codec db id version length existing hrow
  refine ⟨?_, ?_, ?_, ?_⟩
  · rw [read_one_row db id existing hrow, txn_one_row, hkind]
    by_cases hv : existing.version < version
    · have hv' : ¬ existing.version ≥ version := not_le.mpr hv
      cases h : StatusOr.isOk length <;> simp [hv, hv']
    · have hv' : existing.version ≥ version := not_lt.mp hv
      cases h : StatusOr.isOk length <;> simp [hv, hv']
  · rw [hc]
  · intro hv
    have hv' : ¬ existing.version ≥ version := not_le.mpr hv
    rw [hc, hkind]
    have hif : (if StatusOr.isOk length = true ∧ StatusOr.isOk length = false then db
        else if (StatusOr.isOk length = true ∨ StatusOr.isOk length = false) ∧
            existing.version ≥ version then db
        else applyMutation db (Mutation.MakeInsertOrUpdateMutation id version
          (length_or_null length) (serialized_error_or_null codec length))) =
        applyMutation db (Mutation.MakeInsertOrUpdateMutation id version
          (length_or_null length) (serialized_error_or_null codec length)) := by
      cases h : StatusOr.isOk length <;> simp [hv']
    simp only [hif]
    exact rowsWithId_applyMutation_update db id version _ _ existing hrow
  · intro hv
    rw [hc, hkind]
    cases h : StatusOr.isOk length <;> simp [hv]

/-- C3, the example of the specification: on the table holding `(x, 1, length 5)`,
committing `(x, 1, success 6)` leaves length 5. -/
theorem commit_same_kind_iff_newer_witness :
    (rowsWithId [(⟨"x", 1, some 5, none⟩ : StoredRow ℚ)] "x" = [⟨"x", 1, some 5, none⟩] ∧
      (⟨"x", 1, some 5, none⟩ : StoredRow ℚ).length.isSome =
        StatusOr.isOk (Except.ok 6 : StatusOr ℚ) ∧ (1 : Int) ≤ 1) ∧
    (MaybeUpdateComputedLength exampleCodec [(⟨"x", 1, some 5, none⟩ : StoredRow ℚ)] "x" 1
      (.ok 6)).2 = [⟨"x", 1, some 5, none⟩] :=
  ⟨⟨rfl, rfl, le_refl 1⟩,
    (commit_same_kind_iff_newer exampleCodec [(⟨"x", 1, some 5, none⟩ : StoredRow ℚ)] "x" 1
      (.ok 6) ⟨"x", 1, some 5, none⟩ rfl rfl).2.2.2 (le_refl 1)⟩

/-- C4. Commit is idempotent on every table (in particular on one holding at
most one row per id): committing `(id, version, length)` a second time returns
the same status and leaves exactly the table that the first commit left. -/
theorem commit_idempotent {D : Type} (codec : ErrorDetailsCodec) (db : Database D)
    (id : String) (version : Int) (length : StatusOr D) :
    MaybeUpdateComputedLength codec
        (MaybeUpdateComputedLength codec db id version length).2 id version length =
      MaybeUpdateComputedLength codec db id version length := by
  match hrow : rowsWithId db id with
  | [] =>
    rw [commit_no_row codec db id version length hrow]
    exact commit_after_write codec _ id version length
      (rowsWithId_applyMutation_insert db id version _ _ hrow)
  | [existing] =>
    have hc := commit_one_row codec db id version length existing hrow
    by_cases h1 : existing.length.isSome = true ∧ StatusOr.isOk length = false
    · rw [if_pos h1] at hc
      rw [hc]; exact hc
    · rw [if_neg h1] at hc
      by_cases h2 : (existing.length.isSome = true ∨ StatusOr.isOk length = false) ∧
          existing.version ≥ version
      · rw [if_pos h2] at hc
        rw [hc]; exact hc
      · rw [if_neg h2] at hc
        rw [hc]
        exact commit_after_write codec _ id version length
          (rowsWithId_applyMutation_update db id version _ _ existing hrow)
  | r₁ :: r₂ :: rest =>
    have hc := commit_many_rows codec db id version length r₁ r₂ rest hrow
    rw [hc]; exact hc

/-- A commit leaves the table as it was or applies its one mutation. -/
theorem commit_table_cases {D : Type} (codec : ErrorDetailsCodec) (db : Database D)
    (id : String) (version : Int) (length : StatusOr D) :
    (MaybeUpdateComputedLength codec db id version length).2 = db ∨
      (MaybeUpdateComputedLength codec db id version length).2 =
        applyMutation db (Mutation.MakeInsertOrUpdateMutation id version
          (length_or_null length) (serialized_error_or_null codec length)) := by
  match hrow : rowsWithId db id with
  | [] => right; rw [commit_no_row codec db id version length hrow]
  | [existing] =>
    rw [commit_one_row codec db id version length existing hrow]
    by_cases h1 : existing.length.isSome = true ∧ StatusOr.isOk length = false
    · left; simp only [h1, and_self, if_true]
    · by_cases h2 : (existing.length.isSome = true ∨ StatusOr.isOk length = false) ∧
          existing.version ≥ version
      · left; simp only [h1, h2, and_self, if_true, if_false]
      · right; simp only [h1, h2, if_false]
  | r₁ :: r₂ :: rest =>
    left; rw [commit_many_rows codec db id version length r₁ r₂ rest hrow]

/-- The mutations that the transaction callback returns: none, or the one built
from the arguments. -/
theorem txn_mutations {D : Type} (codec : ErrorDetailsCodec) (id : String) (version : Int)
    (length : StatusOr D) (result : List (StatusOr (Int × Option D)))
    (ms : List (Mutation D))
    (h : MaybeUpdateComputedLengthTxn codec id version length result = .ok ms) :
    ms = [] ∨ ms = [Mutation.MakeInsertOrUpdateMutation id version (length_or_null length)
      (serialized_error_or_null codec length)] := by
  unfold MaybeUpdateComputedLengthTxn at h
  split at h
  · cases h
  · split at h
    · left; cases h; rfl
    · split at h
      · left; cases h; rfl
      · right; cases h; rfl

/-- The row built from the arguments of a commit has exactly one of `length` and
`error_details` present. -/
theorem writtenRow_exactlyOne {D : Type} (codec : ErrorDetailsCodec) (id : String)
    (version : Int) (length : StatusOr D) :
    (⟨id, version, length_or_null length, serialized_error_or_null codec length⟩ :
      StoredRow D).exactlyOne := by
  cases length with
  | ok l => left; exact ⟨rfl, rfl⟩
  | error st => right; exact ⟨rfl, rfl⟩

/-- An insert-or-update mutation keeps a property of all rows that its own row
has. -/
theorem applyMutation_forall {D : Type} (P : StoredRow D → Prop) (db : Database D)
    (id : String) (version : Int) (length : Option D) (error_details : Option Bytes)
    (hdb : ∀ r ∈ db, P r) (hnew : P ⟨id, version, length, error_details⟩) :
    ∀ r ∈ applyMutation db (.MakeInsertOrUpdateMutation id version length error_details),
      P r := by
  intro r hr
  by_cases hrow : rowsWithId db id = []
  · rw [applyMutation_insert db id version length error_details hrow] at hr
    rcases List.mem_append.1 hr with h | h
    · exact hdb r h
    · rw [List.mem_singleton.1 h]; exact hnew
  · rw [applyMutation_update db id version length error_details hrow] at hr
    rcases List.mem_map.1 hr with ⟨r₀, hr₀, rfl⟩
    by_cases h : r₀.id = id
    · simpa [h] using hnew
    · simpa [h] using hdb r₀ hr₀

/-- A sequence of commits keeps the row invariant of a table. -/
theorem commitAll_exactlyOne {D : Type} (codec : ErrorDetailsCodec)
    (requests : List (CommitRequest D)) (db : Database D)
    (hdb : ∀ r ∈ db, r.exactlyOne) :
    ∀ r ∈ commitAll codec db requests, r.exactlyOne := by
  induction requests generalizing db with
  | nil => simpa [commitAll] using hdb
  | cons c rest ih =>
    have hstep : ∀ r ∈ (MaybeUpdateComputedLength codec db c.id c.version c.length).2,
        r.exactlyOne := by
      rcases commit_table_cases codec db c.id c.version c.length with h | h
      · rw [h]; exact hdb
      · rw [h]
        exact applyMutation_forall StoredRow.exactlyOne db c.id c.version _ _ hdb
          (writtenRow_exactlyOne codec c.id c.version c.length)
    exact ih _ hstep

/-- C5. Every mutation that the transaction callback returns holds a row with
exactly one of `length` and `error_details` present: `length` present and
`error_details` absent for a success result, `length` absent and `error_details`
present for an error result. Hence every row of every table reached from the
empty table by a sequence of commits has exactly one of the two present. -/
theorem commit_writes_exactly_one {D : Type} (codec : ErrorDetailsCodec) :
    (∀ (id : String) (version : Int) (length : StatusOr D)
        (result : List (StatusOr (Int × Option D))) (ms : List (Mutation D)),
        MaybeUpdateComputedLengthTxn codec id version length result = .ok ms →
        ∀ m ∈ ms, m.row.length.isSome = StatusOr.isOk length ∧
          m.row.error_details.isSome = !StatusOr.isOk length) ∧
      ∀ (requests : List (CommitRequest D)),
        ∀ r ∈ commitAll codec ([] : Database D) requests, r.exactlyOne := by
  refine ⟨?_, ?_⟩
  · intro id version length result ms h m hm
    rcases txn_mutations codec id version length result ms h with rfl | rfl
    · cases hm
    · rw [List.mem_singleton.1 hm]
      exact ⟨isSome_length_or_null length, isSome_serialized_error_or_null codec length⟩
  · intro requests
    exact commitAll_exactlyOne codec requests [] (fun r hr => by cases hr)

/-- C5 on an example: after `(x, 1, success 5)` and `(y, 3, error E)` the table
holds a success row and an error row, each with exactly one column present. -/
theorem commit_writes_exactly_one_witness :
    commitAll exampleCodec ([] : Database ℚ)
        [⟨"x", 1, .ok 5⟩, ⟨"y", 3, .error ⟨StatusCode.INTERNAL, "E"⟩⟩] =
      [⟨"x", 1, some 5, none⟩, ⟨"y", 3, none, some [13, 69]⟩] ∧
    (⟨"y", 3, none, some [13, 69]⟩ : StoredRow ℚ).exactlyOne :=
  ⟨rfl, (commit_writes_exactly_one exampleCodec).2
    [⟨"x", 1, .ok 5⟩, ⟨"y", 3, .error ⟨StatusCode.INTERNAL, "E"⟩⟩]
    ⟨"y", 3, none, some [13, 69]⟩ (List.Mem.tail _ (List.Mem.head _))⟩

/-! ## The lookup service -/

theorem lookup_no_row {D : Type} (codec : ErrorDetailsCodec) (id : String) :
    LookupLengthRows codec id ([] : List (StatusOr (Int × Option D × Option Bytes))) =
      (⟨StatusCode.NOT_FOUND, "Computed length not found, id: " ++ id⟩, ⟨0, none, none⟩) := by
  simp [LookupLengthRows, lookupRowsLoop]

theorem lookup_one_row {D : Type} (codec : ErrorDetailsCodec) (id : String)
    (version : Int) (length : Option D) (error_details : Option Bytes) :
    LookupLengthRows codec id [.ok (version, length, error_details)] =
      match length, error_details with
      | none, none =>
        (⟨StatusCode.DATA_LOSS,
          "length and error_details are both NULL for computed_length.id " ++ id⟩,
          ⟨0, none, none⟩)
      | some _, some _ =>
        (⟨StatusCode.DATA_LOSS,
          "length and error_details are both not NULL for computed_length.id " ++ id⟩,
          ⟨0, none, none⟩)
      | some l, none => (Status.OK, ⟨version, some l, none⟩)
      | none, some bytes =>
        match codec.ParseFromString bytes with
        | none =>
          (⟨StatusCode.DATA_LOSS,
            "Corrupted data in computed_length.error_details for id " ++ id⟩,
            ⟨version, none, none⟩)
        | some error => (Status.OK, ⟨version, none, some error⟩) := by
  simp [LookupLengthRows, lookupRowsLoop]

theorem lookup_many_rows {D : Type} (codec : ErrorDetailsCodec) (id : String)
    (row₁ : Int × Option D × Option Bytes) (row₂ : StatusOr (Int × Option D × Option Bytes))
    (rest : List (StatusOr (Int × Option D × Option Bytes))) :
    LookupLengthRows codec id (.ok row₁ :: row₂ :: rest) =
      (⟨StatusCode.INTERNAL, "Got multiple rows with computed_length.id " ++ id⟩,
        ⟨0, none, none⟩) := by
  simp [LookupLengthRows, lookupRowsLoop]

theorem lookup_read_error {D : Type} (codec : ErrorDetailsCodec) (id : String)
    (st : Status) (rest : List (StatusOr (Int × Option D × Option Bytes))) :
    LookupLengthRows codec id (.error st :: rest) =
      (⟨st.code, st.message ++ "; reading computed_length for id " ++ id⟩,
        ⟨0, none, none⟩) := by
  simp [LookupLengthRows, lookupRowsLoop]

/-- C6. On a table with no row for `id`, a commit of `(id, version, length)`
always produces the mutation and returns `OK`; afterwards the table holds the
written row for `id`, and `LookupLength` returns `OK` with the committed version
and with the length of a success result, or with error details carrying the
integer code and the message of an error result, when the serialization decodes
what it encoded for these details. -/
theorem commit_then_lookup {D : Type} (codec : ErrorDetailsCodec) (db : Database D)
    (id : String) (version : Int) (length : StatusOr D)
    (hrow : rowsWithId db id = [])
    (hcodec : ∀ st, length = .error st →
      codec.ParseFromString (codec.SerializeAsString ⟨st.code.toInt, st.message⟩) =
        some ⟨st.code.toInt, st.message⟩) :
    MaybeUpdateComputedLengthTxn codec id version length (Read db id) =
        .ok [Mutation.MakeInsertOrUpdateMutation id version (length_or_null length)
          (serialized_error_or_null codec length)] ∧
      (MaybeUpdateComputedLength codec db id version length).1 = Status.OK ∧
      rowsWithId (MaybeUpdateComputedLength codec db id version length).2 id =
        [writtenRow codec id version length] ∧
      LookupLength codec (MaybeUpdateComputedLength codec db id version length).2 id =
        (Status.OK,
          match length with
          | .ok l => ⟨version, some l, none⟩
          | .error st => ⟨version, none, some ⟨st.code.toInt, st.message⟩⟩) := by
  have hread : Read db id = [] := by simp [Read, hrow]
  have hc := commit_no_row codec db id version length hrow
  have hrows := rowsWithId_applyMutation_insert db id version (length_or_null length)
    (serialized_error_or_null codec length) hrow
  refine ⟨?_, ?_, ?_, ?_⟩
  · rw [hread, txn_no_row]
  · rw [hc]
  · rw [hc]; exact hrows
  · rw [hc]
    simp only [LookupLength, ExecuteQuery, hrows, List.map_cons, List.map_nil]
    rw [lookup_one_row]
    cases length with
    | ok l => rfl
    | error st =>
      simp only [length_or_null, serialized_error_or_null]
      rw [hcodec st rfl]

/-- C6 on an example: on the empty table, committing `(x, 7, error (INTERNAL, E))`
and looking `x` up returns `OK`, version 7 and the details `(13, E)`. -/
theorem commit_then_lookup_witness :
    (rowsWithId ([] : Database ℚ) "x" = [] ∧
      exampleCodec.ParseFromString (exampleCodec.SerializeAsString ⟨13, "E"⟩) =
        some ⟨13, "E"⟩) ∧
    LookupLength exampleCodec
        (MaybeUpdateComputedLength exampleCodec ([] : Database ℚ) "x" 7
          (.error ⟨StatusCode.INTERNAL, "E"⟩)).2 "x" =
      (Status.OK, ⟨7, none, some ⟨13, "E"⟩⟩) :=
  ⟨⟨rfl, rfl⟩,
    (commit_then_lookup exampleCodec ([] : Database ℚ) "x" 7
      (.error ⟨StatusCode.INTERNAL, "E"⟩) rfl
      (fun st h => by cases h; rfl)).2.2.2⟩

/-- C7. `LookupLength` returns `NOT_FOUND` when the read yields no row, and
`DATA_LOSS` when the one row read has both `length` and `error_details`
present, has neither present, or has `error_details` alone and it fails to
decode. -/
theorem lookup_not_found_and_data_loss {D : Type} (codec : ErrorDetailsCodec) (id : String)
    (version : Int) (l : D) (bytes : Bytes) :
    (LookupLengthRows codec id ([] : List (StatusOr (Int × Option D × Option Bytes)))).1 =
        ⟨StatusCode.NOT_FOUND, "Computed length not found, id: " ++ id⟩ ∧
      (LookupLengthRows codec id [.ok (version, some l, some bytes)]).1 =
        ⟨StatusCode.DATA_LOSS,
          "length and error_details are both not NULL for computed_length.id " ++ id⟩ ∧
      (LookupLengthRows codec id [.ok (version, (none : Option D), none)]).1 =
        ⟨StatusCode.DATA_LOSS,
          "length and error_details are both NULL for computed_length.id " ++ id⟩ ∧
      (codec.ParseFromString bytes = none →
        (LookupLengthRows codec id [.ok (version, (none : Option D), some bytes)]).1 =
          ⟨StatusCode.DATA_LOSS,
            "Corrupted data in computed_length.error_details for id " ++ id⟩) := by
  refine ⟨?_, ?_, ?_, ?_⟩
  · rw [lookup_no_row]
  · rw [lookup_one_row]
  · rw [lookup_one_row]
  · intro h
    rw [lookup_one_row]
    simp only [h]

/-- C7 on an example: a row whose `error_details` are the empty byte string, which
the example encoding does not decode, gives `DATA_LOSS`. -/
theorem lookup_not_found_and_data_loss_witness :
    exampleCodec.ParseFromString [] = none ∧
    (LookupLengthRows exampleCodec "x" [.ok (1, (none : Option ℚ), some [])]).1 =
      ⟨StatusCode.DATA_LOSS, "Corrupted data in computed_length.error_details for id x"⟩ :=
  ⟨rfl, (lookup_not_found_and_data_loss exampleCodec "x" 1 (0 : ℚ) []).2.2.2 rfl⟩

/-- C8, as stated, fails: when the first row of the read is a read error with the
code `UNAVAILABLE`, `LookupLength` returns `UNAVAILABLE`, which is none of `OK`,
`NOT_FOUND` and `DATA_LOSS`. -/
theorem lookup_status_counterexample :
    (LookupLengthRows exampleCodec "x"
        ([.error ⟨StatusCode.UNAVAILABLE, "down"⟩] :
          List (StatusOr (Int × Option ℚ × Option Bytes)))).1 =
      ⟨StatusCode.UNAVAILABLE, "down; reading computed_length for id x"⟩ ∧
    ¬ ((LookupLengthRows exampleCodec "x"
          ([.error ⟨StatusCode.UNAVAILABLE, "down"⟩] :
            List (StatusOr (Int × Option ℚ × Option Bytes)))).1.code = StatusCode.OK ∨
        (LookupLengthRows exampleCodec "x"
          ([.error ⟨StatusCode.UNAVAILABLE, "down"⟩] :
            List (StatusOr (Int × Option ℚ × Option Bytes)))).1.code = StatusCode.NOT_FOUND ∨
        (LookupLengthRows exampleCodec "x"
          ([.error ⟨StatusCode.UNAVAILABLE, "down"⟩] :
            List (StatusOr (Int × Option ℚ × Option Bytes)))).1.code = StatusCode.DATA_LOSS) := by
  refine ⟨by decide, ?_⟩
  decide

/-- C8, amended. The status of `LookupLength` by the outcome of the read:
`NOT_FOUND` for no row; `OK` or `DATA_LOSS` for one row read without error;
`INTERNAL` when a second row follows a first row read without error; and, when
the first row is a read error, the code of that error with its message
followed by the context of the read. -/
theorem lookup_status_by_read_outcome {D : Type} (codec : ErrorDetailsCodec) (id : String) :
    (LookupLengthRows codec id
        ([] : List (StatusOr (Int × Option D × Option Bytes)))).1.code =
        StatusCode.NOT_FOUND ∧
      (∀ row : Int × Option D × Option Bytes,
        (LookupLengthRows codec id [.ok row]).1.code = StatusCode.OK ∨
          (LookupLengthRows codec id [.ok row]).1.code = StatusCode.DATA_LOSS) ∧
      (∀ (row₁ : Int × Option D × Option Bytes)
          (row₂ : StatusOr (Int × Option D × Option Bytes))
          (rest : List (StatusOr (Int × Option D × Option Bytes))),
        (LookupLengthRows codec id (.ok row₁ :: row₂ :: rest)).1.code = StatusCode.INTERNAL) ∧
      (∀ (st : Status) (rest : List (StatusOr (Int × Option D × Option Bytes))),
        (LookupLengthRows codec id (.error st :: rest)).1 =
          ⟨st.code, st.message ++ "; reading computed_length for id " ++ id⟩) := by
  refine ⟨?_, ?_, ?_, ?_⟩
  · rw [lookup_no_row]
  · rintro ⟨version, length, error_details⟩
    rw [lookup_one_row]
    cases length with
    | none =>
      cases error_details with
      | none => right; rfl
      | some bytes =>
        cases h : codec.ParseFromString bytes with
        | none => right; simp only [h]
        | some e => left; simp only [h]; rfl
    | some l =>
      cases error_details with
      | none => left; rfl
      | some bytes => right; rfl
  · intro row₁ row₂ rest
    rw [lookup_many_rows]
  · intro st rest
    rw [lookup_read_error]

/-! ## The retrying compute client -/

theorem status_ok_eq_false_of_unavailable (s : Status)
    (h : s.code = StatusCode.UNAVAILABLE) : s.ok = false := by
  simp [Status.ok, h]

theorem isRetryableError_iff (s : Status) :
    IsRetryableError s = true ↔ s.code = StatusCode.UNAVAILABLE := by
  unfold IsRetryableError
  cases h : s.code <;> simp

/-- The conversions of one pass are defined while `next_delay_ms` is between 0 and
1431655765, the largest value whose product with 1.5 is in the range of `int`. -/
theorem conversions_defined (x : Int) (h0 : 0 ≤ x) (hmax : x ≤ 1431655765) :
    doubleToInt (3 * x) 4 = some (Int.tdiv (3 * x) 4) ∧
      doubleToInt (5 * x) 4 = some (Int.tdiv (5 * x) 4) ∧
      doubleToInt (3 * x) 2 = some (Int.tdiv (3 * x) 2) ∧
      Int.tdiv (3 * x) 4 ≤ Int.tdiv (5 * x) 4 := by
  have e1 : Int.tdiv (3 * x) 4 = 3 * x / 4 := Int.tdiv_eq_ediv (by omega) (by omega)
  have e2 : Int.tdiv (5 * x) 4 = 5 * x / 4 := Int.tdiv_eq_ediv (by omega) (by omega)
  have e3 : Int.tdiv (3 * x) 2 = 3 * x / 2 := Int.tdiv_eq_ediv (by omega) (by omega)
  refine ⟨?_, ?_, ?_, ?_⟩
  · unfold doubleToInt INT_MIN INT_MAX
    rw [e1, if_pos]
    omega
  · unfold doubleToInt INT_MIN INT_MAX
    rw [e2, if_pos]
    omega
  · unfold doubleToInt INT_MIN INT_MAX
    rw [e3, if_pos]
    omega
  · rw [e1, e2]; omega

/-- One pass after an `UNAVAILABLE` failure, while the conversions are defined. -/
theorem iteration_unavailable (env : Environment) (n deadline next_delay_ms : Int) (k : Nat)
    (h0 : 0 ≤ next_delay_ms) (hmax : next_delay_ms ≤ 1431655765)
    (hs : (env.ComputeSquare k n).1.code = StatusCode.UNAVAILABLE) :
    ComputeSquareIteration env n deadline next_delay_ms k =
      if env.now k + env.dist k (Int.tdiv (3 * next_delay_ms) 4)
          (Int.tdiv (5 * next_delay_ms) 4) * env.ticksPerMs > deadline then
        .returned (.error ⟨StatusCode.DEADLINE_EXCEEDED,
          "Deadline exceeded calling Arithmetic.ComputeSquare"⟩)
      else
        .retry (env.dist k (Int.tdiv (3 * next_delay_ms) 4) (Int.tdiv (5 * next_delay_ms) 4))
          (Int.tdiv (3 * next_delay_ms) 2) := by
  obtain ⟨c1, c2, c3, c4⟩ := conversions_defined next_delay_ms h0 hmax
  have hok := status_ok_eq_false_of_unavailable _ hs
  have hre := (isRetryableError_iff _).2 hs
  unfold ComputeSquareIteration
  simp only [hok, hre, c1, c2, c3, RandomIntBetween, c4, if_true, Bool.not_true,
    Bool.false_eq_true, if_false]

/-- One pass when the remote call succeeds. -/
theorem iteration_ok (env : Environment) (n deadline next_delay_ms : Int) (k : Nat)
    (hok : (env.ComputeSquare k n).1.ok = true) :
    ComputeSquareIteration env n deadline next_delay_ms k =
      .returned (.ok (env.ComputeSquare k n).2) := by
  simp [ComputeSquareIteration, hok]

/-- One pass when the remote call fails with a code that is not retryable. -/
theorem iteration_fatal (env : Environment) (n deadline next_delay_ms : Int) (k : Nat)
    (hok : (env.ComputeSquare k n).1.ok = false)
    (hre : IsRetryableError (env.ComputeSquare k n).1 = false) :
    ComputeSquareIteration env n deadline next_delay_ms k =
      .returned (.error ⟨(env.ComputeSquare k n).1.code,
        (env.ComputeSquare k n).1.message ++ "; calling the arithmetic server."⟩) := by
  simp [ComputeSquareIteration, hok, hre]

/-- One pass when the remote call fails with a retryable code. -/
theorem iteration_retryable (env : Environment) (n deadline next_delay_ms : Int) (k : Nat)
    (hok : (env.ComputeSquare k n).1.ok = false)
    (hre : IsRetryableError (env.ComputeSquare k n).1 = true) :
    ComputeSquareIteration env n deadline next_delay_ms k =
      match doubleToInt (3 * next_delay_ms) 4, doubleToInt (5 * next_delay_ms) 4 with
      | some n1, some n2 =>
        match RandomIntBetween env k n1 n2 with
        | none => .undefined
        | some delay_ms =>
          match doubleToInt (3 * next_delay_ms) 2 with
          | none => .undefined
          | some scaled =>
            if env.now k + delay_ms * env.ticksPerMs > deadline then
              .returned (.error ⟨StatusCode.DEADLINE_EXCEEDED,
                "Deadline exceeded calling Arithmetic.ComputeSquare"⟩)
            else
              .retry delay_ms scaled
      | _, _ => .undefined := by
  simp [ComputeSquareIteration, hok, hre]

/-- A pass retries only after an `UNAVAILABLE` failure and only when the clock
plus the delay does not pass the deadline. -/
theorem iteration_retry_cases (env : Environment) (n deadline next_delay_ms : Int) (k : Nat)
    (delay_ms scaled : Int)
    (h : ComputeSquareIteration env n deadline next_delay_ms k = .retry delay_ms scaled) :
    (env.ComputeSquare k n).1.code = StatusCode.UNAVAILABLE ∧
      env.now k + delay_ms * env.ticksPerMs ≤ deadline := by
  cases hok : (env.ComputeSquare k n).1.ok with
  | true => rw [iteration_ok env n deadline next_delay_ms k hok] at h; cases h
  | false =>
    cases hre : IsRetryableError (env.ComputeSquare k n).1 with
    | false => rw [iteration_fatal env n deadline next_delay_ms k hok hre] at h; cases h
    | true =>
      refine ⟨(isRetryableError_iff _).1 hre, ?_⟩
      rw [iteration_retryable env n deadline next_delay_ms k hok hre] at h
      cases h1 : doubleToInt (3 * next_delay_ms) 4 with
      | none => simp [h1] at h
      | some n1 =>
        cases h2 : doubleToInt (5 * next_delay_ms) 4 with
        | none => simp [h1, h2] at h
        | some n2 =>
          cases h3 : RandomIntBetween env k n1 n2 with
          | none => simp [h1, h2, h3] at h
          | some d =>
            cases h4 : doubleToInt (3 * next_delay_ms) 2 with
            | none => simp [h1, h2, h3, h4] at h
            | some sc =>
              simp only [h1, h2, h3, h4] at h
              by_cases hd : env.now k + d * env.ticksPerMs > deadline
              · simp [hd] at h
              · simp only [hd, if_false] at h
                cases h
                exact not_lt.mp hd

/-- A status returned by one pass never has the code `UNAVAILABLE`. -/
theorem iteration_returned_code (env : Environment) (n deadline next_delay_ms : Int) (k : Nat)
    (st : Status)
    (h : ComputeSquareIteration env n deadline next_delay_ms k = .returned (.error st)) :
    st.code ≠ StatusCode.UNAVAILABLE := by
  cases hok : (env.ComputeSquare k n).1.ok with
  | true => rw [iteration_ok env n deadline next_delay_ms k hok] at h; cases h
  | false =>
    cases hre : IsRetryableError (env.ComputeSquare k n).1 with
    | false =>
      rw [iteration_fatal env n deadline next_delay_ms k hok hre] at h
      cases h
      intro hc
      have hre' := (isRetryableError_iff (env.ComputeSquare k n).1).2 hc
      rw [hre'] at hre
      cases hre
    | true =>
      rw [iteration_retryable env n deadline next_delay_ms k hok hre] at h
      cases h1 : doubleToInt (3 * next_delay_ms) 4 with
      | none => simp [h1] at h
      | some n1 =>
        cases h2 : doubleToInt (5 * next_delay_ms) 4 with
        | none => simp [h1, h2] at h
        | some n2 =>
          cases h3 : RandomIntBetween env k n1 n2 with
          | none => simp [h1, h2, h3] at h
          | some d =>
            cases h4 : doubleToInt (3 * next_delay_ms) 2 with
            | none => simp [h1, h2, h3, h4] at h
            | some sc =>
              simp only [h1, h2, h3, h4] at h
              by_cases hd : env.now k + d * env.ticksPerMs > deadline
              · simp only [hd, if_true] at h
                cases h
                decide
              · simp [hd] at h

/-- A status returned by the loop never has the code `UNAVAILABLE`. -/
theorem loop_returned_code (env : Environment) (n deadline : Int) (fuel : Nat) :
    ∀ (next_delay_ms : Int) (w : World) (st : Status) (w' : World),
      ComputeSquareLoop env n deadline fuel next_delay_ms w = .done (.error st, w') →
      st.code ≠ StatusCode.UNAVAILABLE := by
  induction fuel with
  | zero => intro next_delay_ms w st w' h; simp [ComputeSquareLoop] at h
  | succ fuel ih =>
    intro next_delay_ms w st w' h
    unfold ComputeSquareLoop at h
    split at h
    · rename_i result hit
      cases h
      exact iteration_returned_code env n deadline next_delay_ms w.calls st hit
    · cases h
    · exact ih _ _ st w' h

/-- Every run of the loop that returns has issued the remote call first: its events
extend the events before by a call. -/
theorem loop_events (env : Environment) (n deadline : Int) (fuel : Nat) :
    ∀ (next_delay_ms : Int) (w : World) (r : StatusOr Int) (w' : World),
      ComputeSquareLoop env n deadline fuel next_delay_ms w = .done (r, w') →
      ∃ tail, w'.events = w.events ++ Event.call n :: tail := by
  induction fuel with
  | zero => intro next_delay_ms w r w' h; simp [ComputeSquareLoop] at h
  | succ fuel ih =>
    intro next_delay_ms w r w' h
    unfold ComputeSquareLoop at h
    split at h
    · cases h
      exact ⟨[], rfl⟩
    · cases h
    · rename_i delay_ms scaled _
      obtain ⟨tail, ht⟩ := ih _ _ r w' h
      refine ⟨Event.sleep delay_ms :: Event.call n :: tail, ?_⟩
      rw [ht]
      simp

/-- C9. A pass of the loop of `ComputeSquare` goes on to a retry only when the
remote call failed with `UNAVAILABLE`; when the call fails with any other code,
the client returns in that pass, having issued no further remote call, an
error with the same code and the original message followed by
`; calling the arithmetic server.`. -/
theorem fatal_error_returned_at_once (env : Environment) (n deadline next_delay_ms : Int) :
    (∀ (k : Nat) (delay_ms scaled : Int),
        ComputeSquareIteration env n deadline next_delay_ms k = .retry delay_ms scaled →
        (env.ComputeSquare k n).1.code = StatusCode.UNAVAILABLE) ∧
      (∀ (fuel : Nat) (w : World),
        (env.ComputeSquare w.calls n).1.code ≠ StatusCode.OK →
        (env.ComputeSquare w.calls n).1.code ≠ StatusCode.UNAVAILABLE →
        ComputeSquareLoop env n deadline (fuel + 1) next_delay_ms w =
          .done (.error ⟨(env.ComputeSquare w.calls n).1.code,
              (env.ComputeSquare w.calls n).1.message ++ "; calling the arithmetic server."⟩,
            ⟨w.calls + 1, w.events ++ [Event.call n]⟩)) := by
  refine ⟨?_, ?_⟩
  · intro k delay_ms scaled h
    exact (iteration_retry_cases env n deadline next_delay_ms k delay_ms scaled h).1
  · intro fuel w hfail hcode
    have hok : (env.ComputeSquare w.calls n).1.ok = false := by
      simp [Status.ok, hfail]
    have hre : IsRetryableError (env.ComputeSquare w.calls n).1 = false := by
      cases h : IsRetryableError (env.ComputeSquare w.calls n).1 with
      | false => rfl
      | true => exact absurd ((isRetryableError_iff _).1 h) hcode
    unfold ComputeSquareLoop
    rw [iteration_fatal env n deadline next_delay_ms w.calls hok hre]

/-- C9 on an example: the third call of the example environment fails with
`INVALID_ARGUMENT`; the client returns that code with the extended message
after this one call. -/
theorem fatal_error_returned_at_once_witness :
    ((exampleEnvironment.ComputeSquare 2 7).1.code ≠ StatusCode.OK ∧
      (exampleEnvironment.ComputeSquare 2 7).1.code ≠ StatusCode.UNAVAILABLE) ∧
    ComputeSquareLoop exampleEnvironment 7 60000 1 200 ⟨2, []⟩ =
      .done (.error ⟨StatusCode.INVALID_ARGUMENT, "bad; calling the arithmetic server."⟩,
        ⟨3, [Event.call 7]⟩) :=
  ⟨⟨by decide, by decide⟩,
    (fatal_error_returned_at_once exampleEnvironment 7 60000 200).2 0 ⟨2, []⟩
      (by decide) (by decide)⟩

/-- C10. After an `UNAVAILABLE` failure of call `k`, with `next_delay_ms` between 0
and 1431655765 (where the conversions to `int` are defined) and `d` the delay
drawn between `0.75 * next_delay_ms` and `1.25 * next_delay_ms`: when
`now + d > deadline` the client returns `DEADLINE_EXCEEDED` with no further
remote call, and otherwise it sleeps `d` and runs the next pass, which calls
again. A pass retries only after an `UNAVAILABLE` failure with
`now + d <= deadline`, and a status that the client returns never has the code
`UNAVAILABLE`. -/
theorem retry_until_deadline (env : Environment) (n deadline : Int) :
    (∀ (fuel : Nat) (next_delay_ms : Int) (w : World),
        0 ≤ next_delay_ms → next_delay_ms ≤ 1431655765 →
        (env.ComputeSquare w.calls n).1.code = StatusCode.UNAVAILABLE →
        (env.now w.calls + env.dist w.calls (Int.tdiv (3 * next_delay_ms) 4)
            (Int.tdiv (5 * next_delay_ms) 4) * env.ticksPerMs > deadline →
          ComputeSquareLoop env n deadline (fuel + 1) next_delay_ms w =
            .done (.error ⟨StatusCode.DEADLINE_EXCEEDED,
                "Deadline exceeded calling Arithmetic.ComputeSquare"⟩,
              ⟨w.calls + 1, w.events ++ [Event.call n]⟩)) ∧
        (env.now w.calls + env.dist w.calls (Int.tdiv (3 * next_delay_ms) 4)
            (Int.tdiv (5 * next_delay_ms) 4) * env.ticksPerMs ≤ deadline →
          ComputeSquareLoop env n deadline (fuel + 1) next_delay_ms w =
              ComputeSquareLoop env n deadline fuel (Int.tdiv (3 * next_delay_ms) 2)
                ⟨w.calls + 1, w.events ++ [Event.call n,
                  Event.sleep (env.dist w.calls (Int.tdiv (3 * next_delay_ms) 4)
                    (Int.tdiv (5 * next_delay_ms) 4))]⟩ ∧
            ∀ (r : StatusOr Int) (w' : World),
              ComputeSquareLoop env n deadline (fuel + 1) next_delay_ms w = .done (r, w') →
              ∃ tail, w'.events = w.events ++ [Event.call n,
                Event.sleep (env.dist w.calls (Int.tdiv (3 * next_delay_ms) 4)
                  (Int.tdiv (5 * next_delay_ms) 4)), Event.call n] ++ tail)) ∧
      (∀ (next_delay_ms : Int) (k : Nat) (delay_ms scaled : Int),
        ComputeSquareIteration env n deadline next_delay_ms k = .retry delay_ms scaled →
        (env.ComputeSquare k n).1.code = StatusCode.UNAVAILABLE ∧
          env.now k + delay_ms * env.ticksPerMs ≤ deadline) ∧
      (∀ (fuel : Nat) (next_delay_ms : Int) (w : World) (st : Status) (w' : World),
        ComputeSquareLoop env n deadline fuel next_delay_ms w = .done (.error st, w') →
        st.code ≠ StatusCode.UNAVAILABLE) := by
  refine ⟨?_, ?_, ?_⟩
  · intro fuel next_delay_ms w h0 hmax hs
    have hit := iteration_unavailable env n deadline next_delay_ms w.calls h0 hmax hs
    refine ⟨?_, ?_⟩
    · intro hd
      unfold ComputeSquareLoop
      rw [hit, if_pos hd]
    · intro hd
      have hloop : ComputeSquareLoop env n deadline (fuel + 1) next_delay_ms w =
          ComputeSquareLoop env n deadline fuel (Int.tdiv (3 * next_delay_ms) 2)
            ⟨w.calls + 1, w.events ++ [Event.call n,
              Event.sleep (env.dist w.calls (Int.tdiv (3 * next_delay_ms) 4)
                (Int.tdiv (5 * next_delay_ms) 4))]⟩ := by
        conv => lhs; unfold ComputeSquareLoop
        rw [hit, if_neg (not_lt.mpr hd)]
      refine ⟨hloop, ?_⟩
      intro r w' hdone
      rw [hloop] at hdone
      obtain ⟨tail, ht⟩ := loop_events env n deadline fuel _ _ r w' hdone
      refine ⟨tail, ?_⟩
      rw [ht]
      simp
  · intro next_delay_ms k delay_ms scaled h
    exact iteration_retry_cases env n deadline next_delay_ms k delay_ms scaled h
  · intro fuel next_delay_ms w st w' h
    exact loop_returned_code env n deadline fuel next_delay_ms w st w' h

/-- C10 on an example: the first call of the example environment fails with
`UNAVAILABLE` at clock 0 and the drawn delay is 150 ms; with the deadline at
100 the client returns `DEADLINE_EXCEEDED` after this one call, and with the
deadline at 60000 it sleeps 150 ms and runs the next pass with the delay
scaled to 300. -/
theorem retry_until_deadline_witness :
    ((0 : Int) ≤ 200 ∧ (200 : Int) ≤ 1431655765 ∧
      (exampleEnvironment.ComputeSquare 0 7).1.code = StatusCode.UNAVAILABLE ∧
      exampleEnvironment.now 0 + exampleEnvironment.dist 0 (Int.tdiv (3 * 200) 4)
        (Int.tdiv (5 * 200) 4) * exampleEnvironment.ticksPerMs > 100) ∧
    ComputeSquareLoop exampleEnvironment 7 100 1 200 ⟨0, []⟩ =
      .done (.error ⟨StatusCode.DEADLINE_EXCEEDED,
          "Deadline exceeded calling Arithmetic.ComputeSquare"⟩, ⟨1, [Event.call 7]⟩) ∧
    ComputeSquareLoop exampleEnvironment 7 60000 3 200 ⟨0, []⟩ =
      ComputeSquareLoop exampleEnvironment 7 60000 2 300
        ⟨1, [Event.call 7, Event.sleep 150]⟩ :=
  ⟨⟨by decide, by decide, by decide, by decide⟩,
    ((retry_until_deadline exampleEnvironment 7 100).1 0 200 ⟨0, []⟩
      (by decide) (by decide) (by decide)).1 (by decide),
    (((retry_until_deadline exampleEnvironment 7 60000).1 2 200 ⟨0, []⟩
      (by decide) (by decide) (by decide)).2 (by decide)).1⟩

/-! ## Further properties of the retrying compute client -/

/-- C18. The deadline is consulted only after a retryable failure: when the remote
call succeeds the client returns its value in that pass, having issued no
further call, for every deadline, also one that is already in the past; and
the outcome of a pass whose call did not fail with `UNAVAILABLE` is the same
for any two deadlines. -/
theorem success_returned_at_any_deadline (env : Environment) (n next_delay_ms : Int) :
    (∀ (deadline : Int) (fuel : Nat) (w : World),
        (env.ComputeSquare w.calls n).1.code = StatusCode.OK →
        ComputeSquareLoop env n deadline (fuel + 1) next_delay_ms w =
          .done (.ok (env.ComputeSquare w.calls n).2,
            ⟨w.calls + 1, w.events ++ [Event.call n]⟩)) ∧
      (∀ (deadline₁ deadline₂ : Int) (k : Nat),
        (env.ComputeSquare k n).1.code ≠ StatusCode.UNAVAILABLE →
        ComputeSquareIteration env n deadline₁ next_delay_ms k =
          ComputeSquareIteration env n deadline₂ next_delay_ms k) := by
  refine ⟨?_, ?_⟩
  · intro deadline fuel w hcode
    have hok : (env.ComputeSquare w.calls n).1.ok = true := by simp [Status.ok, hcode]
    unfold ComputeSquareLoop
    rw [iteration_ok env n deadline next_delay_ms w.calls hok]
  · intro deadline₁ deadline₂ k hcode
    cases hok : (env.ComputeSquare k n).1.ok with
    | true =>
      rw [iteration_ok env n deadline₁ next_delay_ms k hok,
        iteration_ok env n deadline₂ next_delay_ms k hok]
    | false =>
      have hre : IsRetryableError (env.ComputeSquare k n).1 = false := by
        cases h : IsRetryableError (env.ComputeSquare k n).1 with
        | false => rfl
        | true => exact absurd ((isRetryableError_iff _).1 h) hcode
      rw [iteration_fatal env n deadline₁ next_delay_ms k hok hre,
        iteration_fatal env n deadline₂ next_delay_ms k hok hre]

/-- C18 on an example: call 3 of the example environment succeeds; with the deadline
at -5, before every clock reading, the client returns the square 49 after this
one call. -/
theorem success_returned_at_any_deadline_witness :
    (exampleEnvironment.ComputeSquare 3 7).1.code = StatusCode.OK ∧
    ComputeSquareLoop exampleEnvironment 7 (-5) 1 200 ⟨3, []⟩ =
      .done (.ok 49, ⟨4, [Event.call 7]⟩) :=
  ⟨by decide,
    (success_returned_at_any_deadline exampleEnvironment 7 200).1 (-5) 0 ⟨3, []⟩ (by decide)⟩

/-! ## Further properties of the conditional result store -/

theorem errorOnlyLast_two {α : Type} (result : List (StatusOr α))
    (hshape : errorOnlyLast result = true) (hlen : 2 ≤ result.length) :
    ∃ row₁ row₂ rest, result = .ok row₁ :: row₂ :: rest := by
  match result, hshape, hlen with
  | [], _, hlen => simp at hlen
  | [_], _, hlen => simp at hlen
  | .ok row₁ :: row₂ :: rest, _, _ => exact ⟨row₁, row₂, rest, rfl⟩
  | .error _ :: _ :: _, hshape, _ => simp [errorOnlyLast] at hshape

/-- C17. When the transactional read yields more than one row, also when the last
of them is a row that failed to read, the transaction callback returns
`INTERNAL` and no mutation, so `MaybeUpdateComputedLength` returns `INTERNAL`
(not `NOT_FOUND`, not `OK`) and leaves the table as it was; `LookupLength`
returns `INTERNAL` on such a read as well. -/
theorem commit_many_rows_internal {D : Type} (codec : ErrorDetailsCodec) (id : String)
    (version : Int) (length : StatusOr D) :
    (∀ result : List (StatusOr (Int × Option D)),
        errorOnlyLast result = true → 2 ≤ result.length →
        MaybeUpdateComputedLengthTxn codec id version length result =
          .error ⟨StatusCode.INTERNAL, "Got multiple rows with computed_length.id " ++ id⟩) ∧
      (∀ db : Database D, 2 ≤ (rowsWithId db id).length →
        MaybeUpdateComputedLength codec db id version length =
          (⟨StatusCode.INTERNAL, "Got multiple rows with computed_length.id " ++ id⟩, db)) ∧
      (∀ result : List (StatusOr (Int × Option D × Option Bytes)),
        errorOnlyLast result = true → 2 ≤ result.length →
        (LookupLengthRows codec id result).1 =
          ⟨StatusCode.INTERNAL, "Got multiple rows with computed_length.id " ++ id⟩) := by
  refine ⟨?_, ?_, ?_⟩
  · intro result hshape hlen
    obtain ⟨row₁, row₂, rest, rfl⟩ := errorOnlyLast_two result hshape hlen
    exact txn_many_rows codec id version length row₁ row₂ rest
  · intro db hlen
    match hrow : rowsWithId db id, hlen with
    | [], hlen => simp at hlen
    | [_], hlen => simp at hlen
    | r₁ :: r₂ :: rest, _ => exact commit_many_rows codec db id version length r₁ r₂ rest hrow
  · intro result hshape hlen
    obtain ⟨row₁, row₂, rest, rfl⟩ := errorOnlyLast_two result hshape hlen
    rw [lookup_many_rows]

/-- C17 on an example: a read that yields a row and then a row that failed to read
with `UNAVAILABLE` makes the callback return `INTERNAL`. -/
theorem commit_many_rows_internal_witness :
    (errorOnlyLast ([.ok (1, some 5), .error ⟨StatusCode.UNAVAILABLE, "down"⟩] :
        List (StatusOr (Int × Option ℚ))) = true ∧
      2 ≤ ([.ok (1, some 5), .error ⟨StatusCode.UNAVAILABLE, "down"⟩] :
        List (StatusOr (Int × Option ℚ))).length) ∧
    MaybeUpdateComputedLengthTxn exampleCodec "x" 2 (.ok 6)
        ([.ok (1, some 5), .error ⟨StatusCode.UNAVAILABLE, "down"⟩] :
          List (StatusOr (Int × Option ℚ))) =
      .error ⟨StatusCode.INTERNAL, "Got multiple rows with computed_length.id x"⟩ :=
  ⟨⟨rfl, by decide⟩,
    (commit_many_rows_internal exampleCodec "x" 2 (.ok (6 : ℚ))).1
      [.ok (1, some 5), .error ⟨StatusCode.UNAVAILABLE, "down"⟩] rfl (by decide)⟩

/-- C20. When the table holds one row for `id`, it holds one row for `id` after
every commit to `id`, and the rank of that row is greater than or equal to the
rank of the row before in the lexicographic order: a row that holds a length
still holds a length, and when the kind of the row is the same its version
has not decreased. -/
theorem commit_rank_monotone {D : Type} (codec : ErrorDetailsCodec) (db : Database D)
    (id : String) (version : Int) (length : StatusOr D) (existing : StoredRow D)
    (hrow : rowsWithId db id = [existing]) :
    ∃ after : StoredRow D,
      rowsWithId (MaybeUpdateComputedLength codec db id version length).2 id = [after] ∧
        toLex existing.rank ≤ toLex after.rank ∧
        (existing.length.isSome = true → after.length.isSome = true) ∧
        (existing.length.isSome = after.length.isSome → existing.version ≤ after.version) := by
  rw [commit_one_row codec db id version length existing hrow]
  by_cases h1 : existing.length.isSome = true ∧ StatusOr.isOk length = false
  · refine ⟨existing, ?_, le_refl _, fun h => h, fun _ => le_refl _⟩
    simp only [h1, and_self, if_true]
    exact hrow
  · by_cases h2 : (existing.length.isSome = true ∨ StatusOr.isOk length = false) ∧
        existing.version ≥ version
    · refine ⟨existing, ?_, le_refl _, fun h => h, fun _ => le_refl _⟩
      simp only [h1, h2, and_self, if_true, if_false]
      exact hrow
    · refine ⟨writtenRow codec id version length, ?_, ?_, ?_, ?_⟩
      · simp only [h1, h2, if_false]
        exact rowsWithId_applyMutation_update db id version _ _ existing hrow
      · rw [Prod.Lex.le_iff]
        simp only [StoredRow.rank, writtenRow, isSome_length_or_null]
        cases he : existing.length.isSome <;> cases hl : StatusOr.isOk length <;>
          simp [he, hl] at h1 h2 ⊢
        · exact le_of_lt h2
        · exact le_of_lt h2
      · intro he
        simp only [writtenRow, isSome_length_or_null]
        cases hl : StatusOr.isOk length
        · simp [he, hl] at h1
        · rfl
      · intro hk
        simp only [writtenRow, isSome_length_or_null] at hk ⊢
        cases he : existing.length.isSome <;> cases hl : StatusOr.isOk length <;>
          simp [he, hl] at h1 h2 hk ⊢
        · exact le_of_lt h2
        · exact le_of_lt h2

/-- C20 on an example: on the table holding `(x, 3, length 5)`, committing
`(x, 9, error E)` leaves the row, and committing `(x, 4, success 6)` leaves a row
of rank `(1, 4)` after rank `(1, 3)`. -/
theorem commit_rank_monotone_witness :
    rowsWithId [(⟨"x", 3, some 5, none⟩ : StoredRow ℚ)] "x" = [⟨"x", 3, some 5, none⟩] ∧
    (MaybeUpdateComputedLength exampleCodec [(⟨"x", 3, some 5, none⟩ : StoredRow ℚ)] "x" 9
      (.error ⟨StatusCode.INTERNAL, "E"⟩)).2 = [⟨"x", 3, some 5, none⟩] ∧
    (MaybeUpdateComputedLength exampleCodec [(⟨"x", 3, some 5, none⟩ : StoredRow ℚ)] "x" 4
      (.ok 6)).2 = [⟨"x", 4, some 6, none⟩] ∧
    ∃ after : StoredRow ℚ,
      rowsWithId (MaybeUpdateComputedLength exampleCodec
          [(⟨"x", 3, some 5, none⟩ : StoredRow ℚ)] "x" 4 (.ok 6)).2 "x" = [after] ∧
        toLex (⟨"x", 3, some 5, none⟩ : StoredRow ℚ).rank ≤ toLex after.rank ∧
        ((⟨"x", 3, some 5, none⟩ : StoredRow ℚ).length.isSome = true →
          after.length.isSome = true) ∧
        ((⟨"x", 3, some 5, none⟩ : StoredRow ℚ).length.isSome = after.length.isSome →
          (⟨"x", 3, some 5, none⟩ : StoredRow ℚ).version ≤ after.version) :=
  ⟨rfl, rfl, rfl,
    commit_rank_monotone exampleCodec [(⟨"x", 3, some 5, none⟩ : StoredRow ℚ)] "x" 4 (.ok 6)
      ⟨"x", 3, some 5, none⟩ rfl⟩

/-- A second insert-or-update mutation with the same key replaces what the first
one wrote. -/
theorem applyMutation_applyMutation {D : Type} (db : Database D) (id : String)
    (v₁ v₂ : Int) (l₁ l₂ : Option D) (e₁ e₂ : Option Bytes) :
    applyMutation (applyMutation db (.MakeInsertOrUpdateMutation id v₁ l₁ e₁))
        (.MakeInsertOrUpdateMutation id v₂ l₂ e₂) =
      applyMutation db (.MakeInsertOrUpdateMutation id v₂ l₂ e₂) := by
  by_cases h : rowsWithId db id = []
  · have hafter := rowsWithId_applyMutation_insert db id v₁ l₁ e₁ h
    rw [applyMutation_update _ id v₂ l₂ e₂ (by rw [hafter]; simp),
      applyMutation_insert db id v₁ l₁ e₁ h, applyMutation_insert db id v₂ l₂ e₂ h]
    have hall : ∀ r ∈ db, ¬ r.id = id := by
      intro r hr hid
      have hany := (rowsWithId_eq_nil_iff db id).1 h
      rw [List.any_eq_false] at hany
      exact hany r hr (by simp [hid])
    rw [List.map_append]
    congr 1
    · conv => rhs; rw [← List.map_id db]
      apply List.map_congr_left
      intro r hr
      simp [hall r hr]
    · simp
  · have hne : rowsWithId (applyMutation db (.MakeInsertOrUpdateMutation id v₁ l₁ e₁)) id ≠ [] := by
      rw [applyMutation_update db id v₁ l₁ e₁ h]
      have := rowsWithId_replace_same db ⟨id, v₁, l₁, e₁⟩
      simp only [] at this
      rw [this]
      simpa using h
    rw [applyMutation_update _ id v₂ l₂ e₂ hne, applyMutation_update db id v₁ l₁ e₁ h,
      applyMutation_update db id v₂ l₂ e₂ h, List.map_map]
    apply List.map_congr_left
    intro r _
    by_cases hr : r.id = id <;> simp [hr]

/-- The table after a commit on a table that holds one row for `id`, with the two
guards of the callback joined into one condition. -/
theorem commit_snd_one_row {D : Type} (codec : ErrorDetailsCodec) (db : Database D)
    (id : String) (version : Int) (length : StatusOr D) (existing : StoredRow D)
    (hrow : rowsWithId db id = [existing]) :
    (MaybeUpdateComputedLength codec db id version length).2 =
      if ¬ (existing.length.isSome = true ∧ StatusOr.isOk length = false) ∧
          ¬ ((existing.length.isSome = true ∨ StatusOr.isOk length = false) ∧
            existing.version ≥ version) then
        applyMutation db (Mutation.MakeInsertOrUpdateMutation id version
          (length_or_null length) (serialized_error_or_null codec length))
      else db := by
  rw [commit_one_row codec db id version length existing hrow]
  by_cases h1 : existing.length.isSome = true ∧ StatusOr.isOk length = false
  · simp only [h1, and_self, if_true, not_true_eq_false, false_and, if_false]
  · by_cases h2 : (existing.length.isSome = true ∨ StatusOr.isOk length = false) ∧
        existing.version ≥ version
    · simp only [h1, h2, and_self, if_true, if_false, not_true_eq_false, and_false]
    · simp only [h1, h2, if_false, not_false_eq_true, and_self, if_true]

/-- The table after a commit of `(version₂, length₂)` on a table whose row for `id`
is the row written by a commit of `(version₁, length₁)`. -/
theorem commit_snd_after_write {D : Type} (codec : ErrorDetailsCodec) (db : Database D)
    (id : String) (version₁ version₂ : Int) (length₁ length₂ : StatusOr D)
    (hrow : rowsWithId db id = [writtenRow codec id version₁ length₁]) :
    (MaybeUpdateComputedLength codec db id version₂ length₂).2 =
      if ¬ (StatusOr.isOk length₁ = true ∧ StatusOr.isOk length₂ = false) ∧
          ¬ ((StatusOr.isOk length₁ = true ∨ StatusOr.isOk length₂ = false) ∧
            version₁ ≥ version₂) then
        applyMutation db (Mutation.MakeInsertOrUpdateMutation id version₂
          (length_or_null length₂) (serialized_error_or_null codec length₂))
      else db := by
  rw [commit_snd_one_row codec db id version₂ length₂ _ hrow]
  simp only [writtenRow, isSome_length_or_null]

/-- The table after two commits to `id` on a table that holds no row for `id`. -/
theorem commit_twice_no_row {D : Type} (codec : ErrorDetailsCodec) (db : Database D)
    (id : String) (v₁ v₂ : Int) (r₁ r₂ : StatusOr D) (hrow : rowsWithId db id = []) :
    (MaybeUpdateComputedLength codec
        (MaybeUpdateComputedLength codec db id v₁ r₁).2 id v₂ r₂).2 =
      if ¬ (StatusOr.isOk r₁ = true ∧ StatusOr.isOk r₂ = false) ∧
          ¬ ((StatusOr.isOk r₁ = true ∨ StatusOr.isOk r₂ = false) ∧ v₁ ≥ v₂) then
        applyMutation db (Mutation.MakeInsertOrUpdateMutation id v₂
          (length_or_null r₂) (serialized_error_or_null codec r₂))
      else
        applyMutation db (Mutation.MakeInsertOrUpdateMutation id v₁
          (length_or_null r₁) (serialized_error_or_null codec r₁)) := by
  rw [commit_no_row codec db id v₁ r₁ hrow]
  rw [commit_snd_after_write codec _ id v₁ v₂ r₁ r₂
    (rowsWithId_applyMutation_insert db id v₁ _ _ hrow), applyMutation_applyMutation]

/-- The table after two commits to `id` on a table that holds one row for `id`. -/
theorem commit_twice_one_row {D : Type} (codec : ErrorDetailsCodec) (db : Database D)
    (id : String) (v₁ v₂ : Int) (r₁ r₂ : StatusOr D) (existing : StoredRow D)
    (hrow : rowsWithId db id = [existing]) :
    (MaybeUpdateComputedLength codec
        (MaybeUpdateComputedLength codec db id v₁ r₁).2 id v₂ r₂).2 =
      if ¬ (existing.length.isSome = true ∧ StatusOr.isOk r₁ = false) ∧
          ¬ ((existing.length.isSome = true ∨ StatusOr.isOk r₁ = false) ∧
            existing.version ≥ v₁) then
        if ¬ (StatusOr.isOk r₁ = true ∧ StatusOr.isOk r₂ = false) ∧
            ¬ ((StatusOr.isOk r₁ = true ∨ StatusOr.isOk r₂ = false) ∧ v₁ ≥ v₂) then
          applyMutation db (Mutation.MakeInsertOrUpdateMutation id v₂
            (length_or_null r₂) (serialized_error_or_null codec r₂))
        else
          applyMutation db (Mutation.MakeInsertOrUpdateMutation id v₁
            (length_or_null r₁) (serialized_error_or_null codec r₁))
      else if ¬ (existing.length.isSome = true ∧ StatusOr.isOk r₂ = false) ∧
          ¬ ((existing.length.isSome = true ∨ StatusOr.isOk r₂ = false) ∧
            existing.version ≥ v₂) then
        applyMutation db (Mutation.MakeInsertOrUpdateMutation id v₂
          (length_or_null r₂) (serialized_error_or_null codec r₂))
      else db := by
  by_cases h1 : ¬ (existing.length.isSome = true ∧ StatusOr.isOk r₁ = false) ∧
      ¬ ((existing.length.isSome = true ∨ StatusOr.isOk r₁ = false) ∧
        existing.version ≥ v₁)
  · rw [if_pos h1, commit_snd_one_row codec db id v₁ r₁ existing hrow, if_pos h1]
    rw [commit_snd_after_write codec _ id v₁ v₂ r₁ r₂
      (rowsWithId_applyMutation_update db id v₁ _ _ existing hrow),
      applyMutation_applyMutation]
  · rw [if_neg h1, commit_snd_one_row codec db id v₁ r₁ existing hrow, if_neg h1,
      commit_snd_one_row codec db id v₂ r₂ existing hrow]

/-- C19. Two commits to the same id that are not both of the same kind with the
same version leave the same table in either order, on every table (in
particular on one holding at most one row per id); and after a commit, a
second commit of the same kind and the same version changes nothing, whatever
its payload is: the first one applied wins. -/
theorem commit_order_independent {D : Type} (codec : ErrorDetailsCodec) (db : Database D)
    (id : String) (v₁ v₂ : Int) (r₁ r₂ : StatusOr D) :
    (¬ (StatusOr.isOk r₁ = StatusOr.isOk r₂ ∧ v₁ = v₂) →
        (MaybeUpdateComputedLength codec
            (MaybeUpdateComputedLength codec db id v₁ r₁).2 id v₂ r₂).2 =
          (MaybeUpdateComputedLength codec
            (MaybeUpdateComputedLength codec db id v₂ r₂).2 id v₁ r₁).2) ∧
      (StatusOr.isOk r₁ = StatusOr.isOk r₂ ∧ v₁ = v₂ →
        (MaybeUpdateComputedLength codec
            (MaybeUpdateComputedLength codec db id v₁ r₁).2 id v₂ r₂).2 =
          (MaybeUpdateComputedLength codec db id v₁ r₁).2) := by
  match hrow : rowsWithId db id with
  | [] =>
    refine ⟨?_, ?_⟩
    · intro hne
      rw [commit_twice_no_row codec db id v₁ v₂ r₁ r₂ hrow,
        commit_twice_no_row codec db id v₂ v₁ r₂ r₁ hrow]
      generalize applyMutation db (Mutation.MakeInsertOrUpdateMutation id v₁
        (length_or_null r₁) (serialized_error_or_null codec r₁)) = A
      generalize applyMutation db (Mutation.MakeInsertOrUpdateMutation id v₂
        (length_or_null r₂) (serialized_error_or_null codec r₂)) = B
      revert hne
      cases StatusOr.isOk r₁ <;> cases StatusOr.isOk r₂ <;> simp <;> intro hne <;>
        split_ifs <;> first | rfl | (exfalso; omega)
    · rintro ⟨hk, hv⟩
      rw [commit_twice_no_row codec db id v₁ v₂ r₁ r₂ hrow,
        commit_no_row codec db id v₁ r₁ hrow, hk, hv]
      cases StatusOr.isOk r₂ <;> simp
  | [existing] =>
    refine ⟨?_, ?_⟩
    · intro hne
      rw [commit_twice_one_row codec db id v₁ v₂ r₁ r₂ existing hrow,
        commit_twice_one_row codec db id v₂ v₁ r₂ r₁ existing hrow]
      generalize applyMutation db (Mutation.MakeInsertOrUpdateMutation id v₁
        (length_or_null r₁) (serialized_error_or_null codec r₁)) = A
      generalize applyMutation db (Mutation.MakeInsertOrUpdateMutation id v₂
        (length_or_null r₂) (serialized_error_or_null codec r₂)) = B
      revert hne
      cases existing.length.isSome <;> cases StatusOr.isOk r₁ <;>
        cases StatusOr.isOk r₂ <;> simp <;> intro hne <;>
        split_ifs <;> first | rfl | (exfalso; omega)
    · rintro ⟨hk, hv⟩
      rw [commit_twice_one_row codec db id v₁ v₂ r₁ r₂ existing hrow,
        commit_snd_one_row codec db id v₁ r₁ existing hrow, hk, hv]
      cases existing.length.isSome <;> cases StatusOr.isOk r₂ <;> simp <;>
        split_ifs <;> rfl
  | e₁ :: e₂ :: rest =>
    have h₁ := commit_many_rows codec db id v₁ r₁ e₁ e₂ rest hrow
    have h₂ := commit_many_rows codec db id v₂ r₂ e₁ e₂ rest hrow
    refine ⟨fun _ => ?_, fun _ => ?_⟩
    · rw [h₁, h₂]
      simp only [h₁, h₂]
    · rw [h₁]
      simp only [h₂]

/-- C19 on an example: on the empty table, `(x, 1, success 5)` and `(x, 2, error E)`
leave the success row in either order. -/
theorem commit_order_independent_witness :
    ¬ (StatusOr.isOk (Except.ok 5 : StatusOr ℚ) =
        StatusOr.isOk (Except.error ⟨StatusCode.INTERNAL, "E"⟩ : StatusOr ℚ) ∧ (1 : Int) = 2) ∧
    (MaybeUpdateComputedLength exampleCodec
        (MaybeUpdateComputedLength exampleCodec ([] : Database ℚ) "x" 2
          (.error ⟨StatusCode.INTERNAL, "E"⟩)).2 "x" 1 (.ok 5)).2 =
      [⟨"x", 1, some 5, none⟩] ∧
    (MaybeUpdateComputedLength exampleCodec
        (MaybeUpdateComputedLength exampleCodec ([] : Database ℚ) "x" 1 (.ok 5)).2 "x" 2
          (.error ⟨StatusCode.INTERNAL, "E"⟩)).2 =
      (MaybeUpdateComputedLength exampleCodec
        (MaybeUpdateComputedLength exampleCodec ([] : Database ℚ) "x" 2
          (.error ⟨StatusCode.INTERNAL, "E"⟩)).2 "x" 1 (.ok 5)).2 :=
  ⟨by decide, rfl,
    (commit_order_independent exampleCodec ([] : Database ℚ) "x" 1 2 (.ok 5)
      (.error ⟨StatusCode.INTERNAL, "E"⟩)).1 (by decide)⟩

/-! ## The delays of the retrying compute client -/

theorem doubleToInt_eq_some (num den v : Int) (h : doubleToInt num den = some v) :
    v = Int.tdiv num den := by
  unfold doubleToInt at h
  split at h
  · cases h; rfl
  · cases h

/-- The delay and the scaled loop variable of a pass that retries: the delay is the
draw between the converted bounds, and the loop variable is scaled by 1.5 and
converted to `int`. -/
theorem iteration_retry_values (env : Environment) (n deadline next_delay_ms : Int) (k : Nat)
    (delay_ms scaled : Int)
    (h : ComputeSquareIteration env n deadline next_delay_ms k = .retry delay_ms scaled) :
    delay_ms = env.dist k (Int.tdiv (3 * next_delay_ms) 4) (Int.tdiv (5 * next_delay_ms) 4) ∧
      Int.tdiv (3 * next_delay_ms) 4 ≤ Int.tdiv (5 * next_delay_ms) 4 ∧
      scaled = Int.tdiv (3 * next_delay_ms) 2 := by
  cases hok : (env.ComputeSquare k n).1.ok with
  | true => rw [iteration_ok env n deadline next_delay_ms k hok] at h; cases h
  | false =>
    cases hre : IsRetryableError (env.ComputeSquare k n).1 with
    | false => rw [iteration_fatal env n deadline next_delay_ms k hok hre] at h; cases h
    | true =>
      rw [iteration_retryable env n deadline next_delay_ms k hok hre] at h
      cases h1 : doubleToInt (3 * next_delay_ms) 4 with
      | none => simp [h1] at h
      | some n1 =>
        cases h2 : doubleToInt (5 * next_delay_ms) 4 with
        | none => simp [h1, h2] at h
        | some n2 =>
          have e1 := doubleToInt_eq_some _ _ _ h1
          have e2 := doubleToInt_eq_some _ _ _ h2
          by_cases h12 : n1 ≤ n2
          · cases h4 : doubleToInt (3 * next_delay_ms) 2 with
            | none => simp [h1, h2, h4, RandomIntBetween, h12] at h
            | some sc =>
              have e4 := doubleToInt_eq_some _ _ _ h4
              simp only [h1, h2, h4, RandomIntBetween, h12, if_true] at h
              by_cases hd : env.now k + env.dist k n1 n2 * env.ticksPerMs > deadline
              · simp [hd] at h
              · simp only [hd, if_false] at h
                cases h
                subst e1 e2 e4
                exact ⟨rfl, h12, rfl⟩
          · simp [h1, h2, RandomIntBetween, h12] at h

/-- After `j` passes that retry, the loop runs on with the loop variable scaled `j`
times. -/
theorem loop_after_retries (env : Environment) (n deadline : Int) (fuel : Nat) :
    ∀ (j : Nat) (x : Int) (w : World),
      (∀ i, i < j → ∃ d s,
        ComputeSquareIteration env n deadline (scaledDelay x i) (w.calls + i) = .retry d s) →
      ∃ w' : World, w'.calls = w.calls + j ∧
        ComputeSquareLoop env n deadline (fuel + j) x w =
          ComputeSquareLoop env n deadline fuel (scaledDelay x j) w' := by
  intro j
  induction j with
  | zero => intro x w _; exact ⟨w, rfl, rfl⟩
  | succ j ih =>
    intro x w h
    obtain ⟨d, s, hds⟩ := h 0 (Nat.succ_pos j)
    have hds' : ComputeSquareIteration env n deadline x w.calls = .retry d s := hds
    have hs := (iteration_retry_values env n deadline x w.calls d s hds').2.2
    have hshift : ∀ i, i < j → ∃ d' s',
        ComputeSquareIteration env n deadline (scaledDelay (Int.tdiv (3 * x) 2) i)
          ((⟨w.calls + 1, w.events ++ [Event.call n, Event.sleep d]⟩ : World).calls + i) =
          .retry d' s' := by
      intro i hi
      obtain ⟨d', s', h'⟩ := h (i + 1) (Nat.succ_lt_succ hi)
      refine ⟨d', s', ?_⟩
      have hidx : w.calls + 1 + i = w.calls + (i + 1) := by omega
      show ComputeSquareIteration env n deadline (scaledDelay (Int.tdiv (3 * x) 2) i)
        (w.calls + 1 + i) = .retry d' s'
      rw [hidx]
      exact h'
    obtain ⟨w', hcalls, hloop⟩ := ih (Int.tdiv (3 * x) 2)
      ⟨w.calls + 1, w.events ++ [Event.call n, Event.sleep d]⟩ hshift
    refine ⟨w', ?_, ?_⟩
    · rw [hcalls]; show w.calls + 1 + j = w.calls + (j + 1); omega
    · have hfuel : fuel + (j + 1) = (fuel + j) + 1 := by omega
      rw [hfuel]
      conv => lhs; unfold ComputeSquareLoop
      rw [hds', hs]
      exact hloop

/-- C12, as stated, fails: in a run whose calls all fail with `UNAVAILABLE`, the
loop variable goes 200, 300, 450, 675, 1012; the fifth base delay 1012 is not
1.5 times the fourth, 675, and not `200 * 1.5 ^ 4`, which is 1012.5. -/
theorem base_delay_counterexample :
    ComputeSquareIteration unavailableEnvironment 7 1000000000000 200 0 = .retry 150 300 ∧
    ComputeSquareIteration unavailableEnvironment 7 1000000000000 300 1 = .retry 225 450 ∧
    ComputeSquareIteration unavailableEnvironment 7 1000000000000 450 2 = .retry 337 675 ∧
    ComputeSquareIteration unavailableEnvironment 7 1000000000000 675 3 = .retry 506 1012 ∧
    (1012 : ℚ) ≠ 1.5 * 675 ∧ (1012 : ℚ) ≠ 200 * 1.5 ^ 4 := by
  refine ⟨by decide, by decide, by decide, by decide, by norm_num, by norm_num⟩

/-- C12, amended. `ComputeSquare` starts the loop with `next_delay_ms = 200`; a pass
that retries sets `next_delay_ms` to 1.5 times its value converted to `int`,
which is 1.5 times the value or half a millisecond less, with no cap; so
after `j` retries the loop runs with `scaledDelay 200 j`, which goes 200,
300, 450, 675, 1012, 1518. -/
theorem base_delay_scaling (env : Environment) (n deadline : Int) :
    (∀ (fuel : Nat) (w : World),
        ComputeSquare env n deadline fuel w = ComputeSquareLoop env n deadline fuel 200 w) ∧
      (∀ (next_delay_ms : Int) (k : Nat) (delay_ms scaled : Int),
        ComputeSquareIteration env n deadline next_delay_ms k = .retry delay_ms scaled →
        scaled = Int.tdiv (3 * next_delay_ms) 2 ∧
          (0 ≤ next_delay_ms →
            3 * next_delay_ms - 1 ≤ 2 * scaled ∧ 2 * scaled ≤ 3 * next_delay_ms)) ∧
      (∀ (fuel j : Nat) (w : World),
        (∀ i, i < j → ∃ d s,
          ComputeSquareIteration env n deadline (scaledDelay 200 i) (w.calls + i) =
            .retry d s) →
        ∃ w' : World, w'.calls = w.calls + j ∧
          ComputeSquare env n deadline (fuel + j) w =
            ComputeSquareLoop env n deadline fuel (scaledDelay 200 j) w') ∧
      (scaledDelay 200 0 = 200 ∧ scaledDelay 200 1 = 300 ∧ scaledDelay 200 2 = 450 ∧
        scaledDelay 200 3 = 675 ∧ scaledDelay 200 4 = 1012 ∧ scaledDelay 200 5 = 1518) := by
  refine ⟨fun _ _ => rfl, ?_, ?_, by decide⟩
  · intro next_delay_ms k delay_ms scaled h
    have hs := (iteration_retry_values env n deadline next_delay_ms k delay_ms scaled h).2.2
    refine ⟨hs, ?_⟩
    intro h0
    have e : Int.tdiv (3 * next_delay_ms) 2 = 3 * next_delay_ms / 2 :=
      Int.tdiv_eq_ediv (by omega) (by omega)
    rw [hs, e]
    omega
  · intro fuel j w h
    exact loop_after_retries env n deadline fuel j 200 w h

/-- C12 on an example: in the environment whose calls all fail, the first two
passes retry, and the loop runs on with `next_delay_ms = 450`. -/
theorem base_delay_scaling_witness :
    (∀ i, i < 2 → ∃ d s,
      ComputeSquareIteration unavailableEnvironment 7 1000000000000 (scaledDelay 200 i)
        ((⟨0, []⟩ : World).calls + i) = .retry d s) ∧
    ∃ w' : World, w'.calls = (⟨0, []⟩ : World).calls + 2 ∧
      ComputeSquare unavailableEnvironment 7 1000000000000 (1 + 2) ⟨0, []⟩ =
        ComputeSquareLoop unavailableEnvironment 7 1000000000000 1 (scaledDelay 200 2) w' :=
  have hretry : ∀ i, i < 2 → ∃ d s,
      ComputeSquareIteration unavailableEnvironment 7 1000000000000 (scaledDelay 200 i)
        ((⟨0, []⟩ : World).calls + i) = .retry d s := fun i hi =>
    match i, hi with
    | 0, _ => ⟨150, 300, by decide⟩
    | 1, _ => ⟨225, 450, by decide⟩
    | k + 2, h => absurd h (by omega)
  ⟨hretry,
    (base_delay_scaling unavailableEnvironment 7 1000000000000).2.2.1 1 2 ⟨0, []⟩ hretry⟩

/-- C13, as stated, fails: in a run whose calls all fail with `UNAVAILABLE`, the
third pass has the base delay 450, the distribution is over 337 .. 562, and
the draw 337 is the delay; it is smaller than `0.75 * 450`, which is 337.5. -/
theorem delay_bounds_counterexample :
    ComputeSquareIteration unavailableEnvironment 7 1000000000000 200 0 = .retry 150 300 ∧
    ComputeSquareIteration unavailableEnvironment 7 1000000000000 300 1 = .retry 225 450 ∧
    ComputeSquareIteration unavailableEnvironment 7 1000000000000 450 2 = .retry 337 675 ∧
    Int.tdiv (3 * 450) 4 = 337 ∧ Int.tdiv (5 * 450) 4 = 562 ∧
    unavailableEnvironment.dist 2 337 562 = 337 ∧
    (337 : ℚ) < 0.75 * 450 := by
  refine ⟨by decide, by decide, by decide, by decide, by decide, by decide, by norm_num⟩

/-- C13, amended. When every draw lies between the bounds of its distribution, the
delay of a pass that retries lies between `0.75 * next_delay_ms` and
`1.25 * next_delay_ms`, each converted to `int`: it is never larger than
`1.25 * next_delay_ms`, and it is larger than `0.75 * next_delay_ms - 1`. -/
theorem delay_within_converted_bounds (env : Environment) (n deadline next_delay_ms : Int)
    (k : Nat) (delay_ms scaled : Int)
    (hdist : ∀ (k : Nat) (n1 n2 : Int), n1 ≤ n2 →
      n1 ≤ env.dist k n1 n2 ∧ env.dist k n1 n2 ≤ n2)
    (h0 : 0 ≤ next_delay_ms)
    (h : ComputeSquareIteration env n deadline next_delay_ms k = .retry delay_ms scaled) :
    Int.tdiv (3 * next_delay_ms) 4 ≤ delay_ms ∧ delay_ms ≤ Int.tdiv (5 * next_delay_ms) 4 ∧
      3 * next_delay_ms - 3 ≤ 4 * delay_ms ∧ 4 * delay_ms ≤ 5 * next_delay_ms := by
  obtain ⟨hd, h12, _⟩ := iteration_retry_values env n deadline next_delay_ms k delay_ms scaled h
  obtain ⟨hlo, hhi⟩ := hdist k _ _ h12
  rw [← hd] at hlo hhi
  have e1 : Int.tdiv (3 * next_delay_ms) 4 = 3 * next_delay_ms / 4 :=
    Int.tdiv_eq_ediv (by omega) (by omega)
  have e2 : Int.tdiv (5 * next_delay_ms) 4 = 5 * next_delay_ms / 4 :=
    Int.tdiv_eq_ediv (by omega) (by omega)
  refine ⟨hlo, hhi, ?_, ?_⟩
  · rw [e1] at hlo; omega
  · rw [e2] at hhi; omega

/-- C13 on an example: the first pass of the environment whose calls all fail
retries with the delay 150, between 150 and 250. -/
theorem delay_within_converted_bounds_witness :
    ((∀ (k : Nat) (n1 n2 : Int), n1 ≤ n2 →
        n1 ≤ unavailableEnvironment.dist k n1 n2 ∧ unavailableEnvironment.dist k n1 n2 ≤ n2) ∧
      (0 : Int) ≤ 200 ∧
      ComputeSquareIteration unavailableEnvironment 7 1000000000000 200 0 = .retry 150 300) ∧
    (Int.tdiv (3 * 200) 4 ≤ 150 ∧ (150 : Int) ≤ Int.tdiv (5 * 200) 4 ∧
      3 * 200 - 3 ≤ 4 * (150 : Int) ∧ 4 * (150 : Int) ≤ 5 * 200) :=
  ⟨⟨fun _ _ _ h => ⟨le_refl _, h⟩, by decide, by decide⟩,
    delay_within_converted_bounds unavailableEnvironment 7 1000000000000 200 0 150 300
      (fun _ _ _ h => ⟨le_refl _, h⟩) (by decide) (by decide)⟩

/-! ## Termination of the retry loop -/

/-- The limit of the range of `int`: with the deadline 1000000000000 ms away, a run
whose calls all fail with `UNAVAILABLE`, although its clock advances by more
than every slept delay, has no defined result: at the 40th failure the loop
variable 1473115227 is scaled beyond the range of `int`. -/
theorem fortieth_failure_undefined :
    (∀ j, j < 39 →
      unavailableEnvironment.now j + unavailableEnvironment.dist j
          (Int.tdiv (3 * scaledDelay 200 j) 4) (Int.tdiv (5 * scaledDelay 200 j) 4) *
          unavailableEnvironment.ticksPerMs ≤ unavailableEnvironment.now (j + 1)) ∧
    scaledDelay 200 39 = 1473115227 ∧
    ComputeSquare unavailableEnvironment 7 1000000000000 40 ⟨0, []⟩ = .undefined := by
  refine ⟨by decide, by decide, ?_⟩
  show ComputeSquareLoop unavailableEnvironment 7 1000000000000 40 200 ⟨0, []⟩ = .undefined
  decide

/-- A call of `ComputeSquare` whose first remote call succeeds. -/
theorem computeSquare_ok (env : Environment) (n deadline : Int) (fuel : Nat) (w : World)
    (hcode : (env.ComputeSquare w.calls n).1.code = StatusCode.OK) :
    ComputeSquare env n deadline (fuel + 1) w =
      .done (.ok (env.ComputeSquare w.calls n).2, ⟨w.calls + 1, w.events ++ [Event.call n]⟩) := by
  have hok : (env.ComputeSquare w.calls n).1.ok = true := by simp [Status.ok, hcode]
  unfold ComputeSquare ComputeSquareLoop
  rw [iteration_ok env n deadline kInitialDelayMs w.calls hok]

/-- The loop of `ComputeLength` when every remote call for a coordinate that is left
returns its square. -/
theorem computeLengthLoop_all_succeed {D : Type} (env : Environment) (ops : DoubleArith D)
    (deadline : Int) (fuel : Nat) :
    ∀ (coordinates : List Int) (sum : D) (w : World),
      (∀ (k : Nat) (n : Int), n ∈ coordinates → env.ComputeSquare k n = (Status.OK, n * n)) →
      ComputeLengthLoop env ops deadline (fuel + 1) coordinates sum w =
        .done (.ok (ops.sqrt (coordinates.foldl
            (fun sum n => ops.add sum (ops.ofInt (n * n))) sum)),
          ⟨w.calls + coordinates.length, w.events ++ coordinates.map Event.call⟩) := by
  intro coordinates
  induction coordinates with
  | nil => intro sum w _; simp [ComputeLengthLoop]
  | cons n rest ih =>
    intro sum w hok
    have hn := hok w.calls n (List.mem_cons_self n rest)
    have hsq := computeSquare_ok env n deadline fuel w (by rw [hn]; rfl)
    unfold ComputeLengthLoop
    rw [hsq, hn]
    simp only []
    rw [ih _ _ (fun k m hm => hok k m (List.mem_cons_of_mem n hm))]
    simp [Nat.add_assoc, Nat.add_comm 1]

/-- With arithmetic that is exact on small integers, adding squares to an integer
sum gives the integer sum. -/
theorem foldl_squares_exact {D : Type} (ops : DoubleArith D) (hexact : ops.exactOnIntegers) :
    ∀ (coordinates : List Int) (acc : Int), 0 ≤ acc →
      acc + (coordinates.map (fun n => n * n)).sum ≤ 2 ^ 53 →
      coordinates.foldl (fun sum n => ops.add sum (ops.ofInt (n * n))) (ops.ofInt acc) =
        ops.ofInt (acc + (coordinates.map (fun n => n * n)).sum) := by
  intro coordinates
  induction coordinates with
  | nil => intro acc _ _; simp
  | cons n rest ih =>
    intro acc hacc hsum
    have hsq : 0 ≤ n * n := mul_self_nonneg n
    have hrest : 0 ≤ (rest.map (fun n => n * n)).sum :=
      List.sum_nonneg (fun x hx => by
        obtain ⟨m, _, rfl⟩ := List.mem_map.1 hx
        exact mul_self_nonneg m)
    simp only [List.map_cons, List.sum_cons] at hsum
    simp only [List.foldl_cons, List.map_cons, List.sum_cons]
    rw [hexact.1 acc (n * n) hacc hsq (by linarith), ih (acc + n * n) (by linarith)
      (by linarith), add_assoc]

/-- The pipeline with exact arithmetic on coordinates whose squares sum to a
perfect square. -/
theorem computeLength_perfect_square {D : Type} (env : Environment) (ops : DoubleArith D)
    (deadline : Int) (fuel : Nat) (w : World) (hexact : ops.exactOnIntegers)
    (coordinates : List Int) (m : Int)
    (hok : ∀ (k : Nat) (n : Int), n ∈ coordinates → env.ComputeSquare k n = (Status.OK, n * n))
    (hm : 0 ≤ m) (hsum : (coordinates.map (fun n => n * n)).sum = m * m)
    (hsmall : m * m ≤ 2 ^ 53) :
    ComputeLength env ops coordinates deadline (fuel + 1) w =
      .done (.ok (ops.ofInt m),
        ⟨w.calls + coordinates.length, w.events ++ coordinates.map Event.call⟩) := by
  unfold ComputeLength
  rw [computeLengthLoop_all_succeed env ops deadline fuel coordinates _ w hok,
    foldl_squares_exact ops hexact coordinates 0 (le_refl 0) (by rw [zero_add, hsum]; exact hsmall),
    zero_add, hsum, hexact.2 m hm hsmall]

/-- C14. When every remote call for a coordinate `n` succeeds with `n * n`,
`ComputeLength` issues one call for each coordinate in input order and
succeeds with the square root of the sum of the squares, computed in
`double`. With `double` arithmetic exact on small integers the result is `m`
whenever the squares sum to `m * m`: it is 0 for the empty list and for every
all-zero list, and 5 for `[3, 4]`. -/
theorem compute_length_sum_of_squares {D : Type} (env : Environment) (ops : DoubleArith D)
    (deadline : Int) (fuel : Nat) (w : World) :
    (∀ coordinates : List Int,
        (∀ (k : Nat) (n : Int), n ∈ coordinates → env.ComputeSquare k n = (Status.OK, n * n)) →
        ComputeLength env ops coordinates deadline (fuel + 1) w =
          .done (.ok (ops.sqrt (coordinates.foldl
              (fun sum n => ops.add sum (ops.ofInt (n * n))) (ops.ofInt 0))),
            ⟨w.calls + coordinates.length, w.events ++ coordinates.map Event.call⟩)) ∧
      (ops.exactOnIntegers →
        (∀ (coordinates : List Int) (m : Int),
          (∀ (k : Nat) (n : Int), n ∈ coordinates →
            env.ComputeSquare k n = (Status.OK, n * n)) →
          0 ≤ m → (coordinates.map (fun n => n * n)).sum = m * m → m * m ≤ 2 ^ 53 →
          ComputeLength env ops coordinates deadline (fuel + 1) w =
            .done (.ok (ops.ofInt m),
              ⟨w.calls + coordinates.length, w.events ++ coordinates.map Event.call⟩)) ∧
        ComputeLength env ops [] deadline (fuel + 1) w = .done (.ok (ops.ofInt 0), w) ∧
        (∀ coordinates : List Int,
          (∀ (k : Nat) (n : Int), n ∈ coordinates →
            env.ComputeSquare k n = (Status.OK, n * n)) →
          (∀ n ∈ coordinates, n = 0) →
          ComputeLength env ops coordinates deadline (fuel + 1) w =
            .done (.ok (ops.ofInt 0),
              ⟨w.calls + coordinates.length, w.events ++ coordinates.map Event.call⟩)) ∧
        ((∀ (k : Nat) (n : Int), n ∈ [3, 4] → env.ComputeSquare k n = (Status.OK, n * n)) →
          ComputeLength env ops [3, 4] deadline (fuel + 1) w =
            .done (.ok (ops.ofInt 5),
              ⟨w.calls + 2, w.events ++ [Event.call 3, Event.call 4]⟩))) := by
  refine ⟨?_, ?_⟩
  · intro coordinates hok
    exact computeLengthLoop_all_succeed env ops deadline fuel coordinates _ w hok
  · intro hexact
    refine ⟨?_, ?_, ?_, ?_⟩
    · intro coordinates m hok hm hsum hsmall
      exact computeLength_perfect_square env ops deadline fuel w hexact coordinates m hok hm
        hsum hsmall
    · have h := computeLength_perfect_square env ops deadline fuel w hexact [] 0
        (fun _ _ hn => by cases hn) (le_refl 0) (by simp) (by norm_num)
      simpa using h
    · intro coordinates hok hzero
      have hsum : (coordinates.map (fun n => n * n)).sum = 0 * 0 := by
        rw [zero_mul]
        apply List.sum_eq_zero
        intro x hx
        obtain ⟨n, hn, rfl⟩ := List.mem_map.1 hx
        rw [hzero n hn, zero_mul]
      exact computeLength_perfect_square env ops deadline fuel w hexact coordinates 0 hok
        (le_refl 0) hsum (by norm_num)
    · intro hok
      exact computeLength_perfect_square env ops deadline fuel w hexact [3, 4] 5 hok
        (by norm_num) (by norm_num) (by norm_num)

theorem exampleArith_exact : exampleArith.exactOnIntegers := by
  refine ⟨fun a b _ _ _ => rfl, ?_⟩
  intro m hm _
  obtain ⟨k, rfl⟩ := Int.eq_ofNat_of_zero_le hm
  show Int.ofNat (Nat.sqrt ((k : Int) * (k : Int)).toNat) = (k : Int)
  have : ((k : Int) * (k : Int)).toNat = k * k := by
    rw [← Int.natCast_mul]; exact Int.toNat_natCast _
  rw [this, Nat.sqrt_eq]
  rfl

/-- C14 on an example: with the arithmetic server answering every call and exact
arithmetic, `ComputeLength` of `[3, 4]` is 5 after the calls for 3 and for 4. -/
theorem compute_length_sum_of_squares_witness :
    (exampleArith.exactOnIntegers ∧
      ∀ (k : Nat) (n : Int), n ∈ [3, 4] →
        serverEnvironment.ComputeSquare k n = (Status.OK, n * n)) ∧
    ComputeLength serverEnvironment exampleArith [3, 4] 60000 (0 + 1) ⟨0, []⟩ =
      .done (.ok (exampleArith.ofInt 5), ⟨0 + 2, [] ++ [Event.call 3, Event.call 4]⟩) :=
  have hok : ∀ (k : Nat) (n : Int), n ∈ [3, 4] →
      serverEnvironment.ComputeSquare k n = (Status.OK, n * n) := by
    intro k n hn
    simp only [List.mem_cons, List.mem_singleton, List.not_mem_nil, or_false] at hn
    rcases hn with rfl | rfl <;> rfl
  ⟨⟨exampleArith_exact, hok⟩,
    ((compute_length_sum_of_squares serverEnvironment exampleArith 60000 0 ⟨0, []⟩).2
      exampleArith_exact).2.2.2 hok⟩

/-- The loop of `ComputeLength` after the calls for the first coordinates succeeded:
it goes on with the coordinates that are left, from the record that these
calls left. -/
theorem computeLengthLoop_append {D : Type} (env : Environment) (ops : DoubleArith D)
    (deadline : Int) (fuel : Nat) :
    ∀ (front : List Int) (sum : D) (w : World) (squares : List Int) (w₁ : World),
      squaresInOrder env deadline fuel front w = some (squares, w₁) →
      ∀ rest : List Int,
        ComputeLengthLoop env ops deadline fuel (front ++ rest) sum w =
          ComputeLengthLoop env ops deadline fuel rest
            (squares.foldl (fun sum square => ops.add sum (ops.ofInt square)) sum) w₁ := by
  intro front
  induction front with
  | nil =>
    intro sum w squares w₁ h rest
    simp only [squaresInOrder, Option.some.injEq, Prod.mk.injEq] at h
    obtain ⟨rfl, rfl⟩ := h
    rfl
  | cons n front ih =>
    intro sum w squares w₁ h rest
    unfold squaresInOrder at h
    rw [List.cons_append]
    conv => lhs; unfold ComputeLengthLoop
    cases hsq : ComputeSquare env n deadline fuel w with
    | undefined => simp [hsq] at h
    | outOfFuel => simp [hsq] at h
    | done r =>
      obtain ⟨result, w'⟩ := r
      cases result with
      | error st => simp [hsq] at h
      | ok square =>
        simp only [hsq] at h ⊢
        cases hrest : squaresInOrder env deadline fuel front w' with
        | none => simp [hrest] at h
        | some p =>
          obtain ⟨squares', w₂⟩ := p
          simp only [hrest, Option.some.injEq, Prod.mk.injEq] at h
          obtain ⟨rfl, rfl⟩ := h
          rw [ih _ _ _ _ hrest rest]
          rfl

/-- A failure that the loop of `ComputeLength` returns is the failure of the call
for one coordinate, after the calls for the coordinates before it succeeded. -/
theorem computeLengthLoop_error {D : Type} (env : Environment) (ops : DoubleArith D)
    (deadline : Int) (fuel : Nat) :
    ∀ (coordinates : List Int) (sum : D) (w : World) (st : Status) (w₂ : World),
      ComputeLengthLoop env ops deadline fuel coordinates sum w = .done (.error st, w₂) →
      ∃ (front : List Int) (n : Int) (back : List Int) (squares : List Int) (w₁ : World),
        coordinates = front ++ n :: back ∧
          squaresInOrder env deadline fuel front w = some (squares, w₁) ∧
          ComputeSquare env n deadline fuel w₁ = .done (.error st, w₂) := by
  intro coordinates
  induction coordinates with
  | nil => intro sum w st w₂ h; simp [ComputeLengthLoop] at h
  | cons n rest ih =>
    intro sum w st w₂ h
    unfold ComputeLengthLoop at h
    cases hsq : ComputeSquare env n deadline fuel w with
    | undefined => simp [hsq] at h
    | outOfFuel => simp [hsq] at h
    | done r =>
      obtain ⟨result, w'⟩ := r
      cases result with
      | error st' =>
        simp only [hsq, Outcome.done.injEq, Prod.mk.injEq, Except.error.injEq] at h
        obtain ⟨rfl, rfl⟩ := h
        exact ⟨[], n, rest, [], w, rfl, rfl, hsq⟩
      | ok square =>
        simp only [hsq] at h
        obtain ⟨front, m, back, squares, w₁, hsplit, hfront, hfail⟩ := ih _ _ _ _ h
        refine ⟨n :: front, m, back, square :: squares, w₁, ?_, ?_, hfail⟩
        · rw [hsplit]; rfl
        · unfold squaresInOrder
          simp only [hsq, hfront]

/-- C15. When the calls of `ComputeSquare` for the coordinates before coordinate
`n`, made once each in input order, succeed, and the call for `n` returns a
failure, `ComputeLength` returns exactly that failure and the record of the run
is the one that the call for `n` left, whatever coordinates follow: nothing
is called for them. Every failure that `ComputeLength` returns arises in
this way. -/
theorem compute_length_first_failure {D : Type} (env : Environment) (ops : DoubleArith D)
    (deadline : Int) (fuel : Nat) (w : World) :
    (∀ (front : List Int) (n : Int) (back : List Int) (squares : List Int) (w₁ w₂ : World)
        (st : Status),
        squaresInOrder env deadline fuel front w = some (squares, w₁) →
        ComputeSquare env n deadline fuel w₁ = .done (.error st, w₂) →
        ComputeLength env ops (front ++ n :: back) deadline fuel w = .done (.error st, w₂)) ∧
      (∀ (coordinates : List Int) (st : Status) (w₂ : World),
        ComputeLength env ops coordinates deadline fuel w = .done (.error st, w₂) →
        ∃ (front : List Int) (n : Int) (back : List Int) (squares : List Int) (w₁ : World),
          coordinates = front ++ n :: back ∧
            squaresInOrder env deadline fuel front w = some (squares, w₁) ∧
            ComputeSquare env n deadline fuel w₁ = .done (.error st, w₂)) := by
  refine ⟨?_, ?_⟩
  · intro front n back squares w₁ w₂ st hfront hfail
    unfold ComputeLength
    rw [computeLengthLoop_append env ops deadline fuel front _ w squares w₁ hfront]
    unfold ComputeLengthLoop
    rw [hfail]
  · intro coordinates st w₂ h
    exact computeLengthLoop_error env ops deadline fuel coordinates _ w st w₂ h

/-- C15 on an example: with the arithmetic server answering, the call for 3
succeeds and the call for 2000 is rejected; `ComputeLength` of `[3, 2000, 4]`
returns the rejection after two remote calls and never calls for 4. -/
theorem compute_length_first_failure_witness :
    (squaresInOrder serverEnvironment 60000 1 [3] ⟨0, []⟩ = some ([9], ⟨1, [Event.call 3]⟩) ∧
      ComputeSquare serverEnvironment 2000 60000 1 ⟨1, [Event.call 3]⟩ =
        .done (.error ⟨StatusCode.INVALID_ARGUMENT,
            "request.number 2000 is outside the valid range 0 .. 1000" ++
              "; calling the arithmetic server."⟩,
          ⟨2, [Event.call 3, Event.call 2000]⟩)) ∧
    ComputeLength serverEnvironment exampleArith ([3] ++ 2000 :: [4]) 60000 1 ⟨0, []⟩ =
      .done (.error ⟨StatusCode.INVALID_ARGUMENT,
          "request.number 2000 is outside the valid range 0 .. 1000" ++
            "; calling the arithmetic server."⟩,
        ⟨2, [Event.call 3, Event.call 2000]⟩) :=
  ⟨⟨by decide, by decide⟩,
    (compute_length_first_failure serverEnvironment exampleArith 60000 1 ⟨0, []⟩).1
      [3] 2000 [4] [9] ⟨1, [Event.call 3]⟩ ⟨2, [Event.call 3, Event.call 2000]⟩ _
      (by decide) (by decide)⟩

/-! ## The ingestion handler -/

/-- C16. For a delivered message the handler sends no acknowledgment and makes no
commit when the payload is malformed; when the payload decodes and the
pipeline returns an outcome, a computed length or an error, it commits that
outcome once and sends one acknowledgment if the commit status is `OK` and
none otherwise. So an acknowledgment is sent at most once, and exactly when
the payload decodes and the commit succeeds. -/
theorem ack_iff_commit_succeeds {D S : Type}
    (ParseFromString : Bytes → Option ScheduleLengthComputationRequest)
    (env : Environment) (ops : DoubleArith D)
    (db : S → String → Int → StatusOr D → Status × S)
    (fuel : Nat) (received : Int) (data : Bytes) (store : S) (w : World) :
    (ParseFromString data = none →
        SubscribeCallback ParseFromString env ops db fuel received data store w =
          .done ⟨0, [], store, w⟩) ∧
      (∀ (request : ScheduleLengthComputationRequest) (length : StatusOr D) (w₁ : World),
        ParseFromString data = some request →
        ComputeLength env ops request.coordinates (received + 60000 * env.ticksPerMs) fuel w =
          .done (length, w₁) →
        SubscribeCallback ParseFromString env ops db fuel received data store w =
          .done ⟨if (db store request.id request.version length).1.ok = true then 1 else 0,
            [⟨request.id, request.version, length⟩],
            (db store request.id request.version length).2, w₁⟩) ∧
      (∀ delivery : Delivery D S,
        SubscribeCallback ParseFromString env ops db fuel received data store w =
          .done delivery →
        delivery.acks ≤ 1 ∧
          (delivery.acks = 1 ↔
            ∃ (request : ScheduleLengthComputationRequest) (length : StatusOr D) (w₁ : World),
              ParseFromString data = some request ∧
                ComputeLength env ops request.coordinates
                  (received + 60000 * env.ticksPerMs) fuel w = .done (length, w₁) ∧
                (db store request.id request.version length).1.ok = true)) := by
  have hsome : ∀ (request : ScheduleLengthComputationRequest) (length : StatusOr D)
      (w₁ : World), ParseFromString data = some request →
      ComputeLength env ops request.coordinates (received + 60000 * env.ticksPerMs) fuel w =
        .done (length, w₁) →
      SubscribeCallback ParseFromString env ops db fuel received data store w =
        .done ⟨if (db store request.id request.version length).1.ok = true then 1 else 0,
          [⟨request.id, request.version, length⟩],
          (db store request.id request.version length).2, w₁⟩ := by
    intro request length w₁ hparse hlen
    unfold SubscribeCallback
    simp only [hparse, hlen]
    cases hok : (db store request.id request.version length).1.ok <;> simp
  refine ⟨?_, hsome, ?_⟩
  · intro hparse
    unfold SubscribeCallback
    simp only [hparse]
  · intro delivery hdone
    cases hparse : ParseFromString data with
    | none =>
      have h0 : SubscribeCallback ParseFromString env ops db fuel received data store w =
          .done ⟨0, [], store, w⟩ := by
        unfold SubscribeCallback
        simp only [hparse]
      rw [h0] at hdone
      cases hdone
      refine ⟨Nat.zero_le _, ?_⟩
      constructor
      · intro h; cases h
      · rintro ⟨request, _, _, h, _⟩; cases h
    | some request =>
      cases hlen : ComputeLength env ops request.coordinates
          (received + 60000 * env.ticksPerMs) fuel w with
      | undefined =>
        unfold SubscribeCallback at hdone
        simp [hparse, hlen] at hdone
      | outOfFuel =>
        unfold SubscribeCallback at hdone
        simp [hparse, hlen] at hdone
      | done r =>
        obtain ⟨length, w₁⟩ := r
        rw [hsome request length w₁ hparse hlen] at hdone
        cases hdone
        cases hok : (db store request.id request.version length).1.ok with
        | false =>
          refine ⟨by simp, ?_⟩
          constructor
          · intro h; simp at h
          · rintro ⟨request', length', w₁', hp, hl, hc⟩
            cases hp
            rw [hlen] at hl
            cases hl
            rw [hok] at hc
            cases hc
        | true =>
          refine ⟨by simp, ?_⟩
          constructor
          · intro _
            exact ⟨request, length, w₁, rfl, hlen, hok⟩
          · intro _; simp

theorem exampleLength :
    ComputeLength serverEnvironment exampleArith [3, 4]
        (0 + 60000 * serverEnvironment.ticksPerMs) 1 ⟨0, []⟩ =
      .done (.ok 5, ⟨2, [Event.call 3, Event.call 4]⟩) :=
  computeLength_perfect_square serverEnvironment exampleArith
    (0 + 60000 * serverEnvironment.ticksPerMs) 0 ⟨0, []⟩ exampleArith_exact [3, 4] 5
    (by
      intro k n hn
      simp only [List.mem_cons, List.mem_singleton, List.not_mem_nil, or_false] at hn
      rcases hn with rfl | rfl <;> rfl)
    (by norm_num) (by norm_num) (by norm_num)

/-- C16 on examples: a payload that decodes to `(x, 1, [3, 4])` is acknowledged once
after the commit of length 5 on the empty table; on a table with two rows for
`x` the commit fails and nothing is acknowledged; a malformed payload is
dropped with no commit and no acknowledgment. -/
theorem ack_iff_commit_succeeds_witness :
    (exampleParseFromString [1] = some ⟨"x", 1, [3, 4]⟩ ∧
      ComputeLength serverEnvironment exampleArith [3, 4]
        (0 + 60000 * serverEnvironment.ticksPerMs) 1 ⟨0, []⟩ =
        .done (.ok 5, ⟨2, [Event.call 3, Event.call 4]⟩) ∧
      exampleParseFromString [] = none) ∧
    SubscribeCallback exampleParseFromString serverEnvironment exampleArith
        (MaybeUpdateComputedLength exampleCodec) 1 0 [1] ([] : Database Int) ⟨0, []⟩ =
      .done ⟨1, [⟨"x", 1, .ok 5⟩], [⟨"x", 1, some 5, none⟩],
        ⟨2, [Event.call 3, Event.call 4]⟩⟩ ∧
    SubscribeCallback exampleParseFromString serverEnvironment exampleArith
        (MaybeUpdateComputedLength exampleCodec) 1 0 [1]
        ([⟨"x", 0, some 1, none⟩, ⟨"x", 0, some 2, none⟩] : Database Int) ⟨0, []⟩ =
      .done ⟨0, [⟨"x", 1, .ok 5⟩], [⟨"x", 0, some 1, none⟩, ⟨"x", 0, some 2, none⟩],
        ⟨2, [Event.call 3, Event.call 4]⟩⟩ ∧
    SubscribeCallback exampleParseFromString serverEnvironment exampleArith
        (MaybeUpdateComputedLength exampleCodec) 1 0 [] ([] : Database Int) ⟨0, []⟩ =
      .done ⟨0, [], [], ⟨0, []⟩⟩ :=
  ⟨⟨rfl, exampleLength, rfl⟩,
    (ack_iff_commit_succeeds exampleParseFromString serverEnvironment exampleArith
      (MaybeUpdateComputedLength exampleCodec) 1 0 [1] ([] : Database Int) ⟨0, []⟩).2.1
      ⟨"x", 1, [3, 4]⟩ (.ok 5) ⟨2, [Event.call 3, Event.call 4]⟩ rfl exampleLength,
    (ack_iff_commit_succeeds exampleParseFromString serverEnvironment exampleArith
      (MaybeUpdateComputedLength exampleCodec) 1 0 [1]
      ([⟨"x", 0, some 1, none⟩, ⟨"x", 0, some 2, none⟩] : Database Int) ⟨0, []⟩).2.1
      ⟨"x", 1, [3, 4]⟩ (.ok 5) ⟨2, [Event.call 3, Event.call 4]⟩ rfl exampleLength,
    (ack_iff_commit_succeeds exampleParseFromString serverEnvironment exampleArith
      (MaybeUpdateComputedLength exampleCodec) 1 0 [] ([] : Database Int) ⟨0, []⟩).1 rfl⟩

end mathematics
